import Mathlib

/-!
Venta de boletos: verification of `js/script.js`.

A shallow embedding of the ticket-sales script: the price table, the ledger
`ventas`, the summary `resumen`, the whole-value validators and the
operations that mutate ledger and summary.

Conventions of the embedding.

* JavaScript numbers are IEEE-754 doubles.  Every number the script handles
  on the modelled paths is an integer (prices 50, 30, 15; quantities coming
  from `parseInt`), an infinity or NaN, so `Numero` holds exactly those, and
  every arithmetic result is rounded to the nearest double (ties to even).
* The DOM form is three strings; `Date.now()` and the formatted date are
  inputs of `procesarVenta`.
* `localStorage` writes (`guardarDatos`), taken to succeed, and rendering do
  not change ledger or summary and are left out.
* The record `cargarDatos` reads is an input; `JSON.parse` is modelled by a
  scanner and a stack analysis of the JSON grammar, and the globals it fills
  are JSON values of any shape.
-/

namespace Boleteria

/-! ## Numbers -/

/-- A JavaScript number restricted to integers, the two infinities and NaN. -/
inductive Numero where
  | fin (z : Int)
  | inf
  | negInf
  | nan
  deriving DecidableEq, Repr

/-- Largest magnitude up to which every integer is a double: 2^53. -/
def limiteExacto : Nat := 9007199254740992

/-- Spacing of the doubles around `n`: the least power of two `u`, found by
doubling, with `n / u < 2^53`.  The first argument bounds the number of
doublings; `n` itself is always enough. -/
def espaciado : Nat → Nat → Nat → Nat
  | 0, _, u => u
  | k + 1, n, u => if n / u < limiteExacto then u else espaciado k n (2 * u)

/-- Round a natural number to the nearest double (ties to even); `none` when
the rounded magnitude reaches 2^1024 and the result overflows. -/
def redondearNat (n : Nat) : Option Nat :=
  if n ≤ limiteExacto then some n
  else
    let ulp := espaciado n n 1
    let q := n / ulp
    let r := n % ulp
    let q1 := if ulp < 2 * r ∨ (2 * r = ulp ∧ q % 2 = 1) then q + 1 else q
    if (2 ^ 256) ^ 4 ≤ q1 * ulp then none else some (q1 * ulp)

/-- The double nearest to an integer. -/
def redondear (z : Int) : Numero :=
  match redondearNat z.natAbs with
  | none => if z < 0 then .negInf else .inf
  | some m => .fin (if z < 0 then -(m : Int) else (m : Int))

namespace Numero

/-- Sign of a number as an integer (0 for zero and for NaN). -/
def signo : Numero → Int
  | fin z => z.sign
  | inf => 1
  | negInf => -1
  | nan => 0

/-- Unary minus. -/
def negar : Numero → Numero
  | fin z => fin (-z)
  | inf => negInf
  | negInf => inf
  | nan => nan

/-- The `+` of two numbers. -/
def sumar : Numero → Numero → Numero
  | nan, _ => nan
  | _, nan => nan
  | fin a, fin b => redondear (a + b)
  | inf, negInf => nan
  | negInf, inf => nan
  | inf, _ => inf
  | _, inf => inf
  | negInf, _ => negInf
  | _, negInf => negInf

/-- The `-` of two numbers. -/
def restar (a b : Numero) : Numero := sumar a (negar b)

/-- The `*` of two numbers. -/
def multiplicar : Numero → Numero → Numero
  | nan, _ => nan
  | _, nan => nan
  | fin a, fin b => redondear (a * b)
  | a, b =>
    if a.signo * b.signo = 0 then nan
    else if 0 < a.signo * b.signo then inf else negInf

/-- The `>` of two numbers (false as soon as one side is NaN). -/
def mayorQue : Numero → Numero → Bool
  | fin a, fin b => decide (b < a)
  | inf, fin _ => true
  | inf, negInf => true
  | fin _, negInf => true
  | _, _ => false

end Numero

/-! ## Characters, `\d`, `\s`, the name class -/

/-- The class `\d` (no unicode flag): the ASCII digits. -/
def esDigito (c : Char) : Bool := decide (48 ≤ c.toNat) && decide (c.toNat ≤ 57)

/-- The class `\s`, which is also what `String.prototype.trim` strips: the
WhiteSpace and LineTerminator code points. -/
def esEspacioJS (c : Char) : Bool :=
  let n := c.toNat
  n == 0x09 || n == 0x0A || n == 0x0B || n == 0x0C || n == 0x0D || n == 0x20 ||
  n == 0xA0 || n == 0x1680 || (decide (0x2000 ≤ n) && decide (n ≤ 0x200A)) ||
  n == 0x2028 || n == 0x2029 || n == 0x202F || n == 0x205F || n == 0x3000 ||
  n == 0xFEFF

/-- The letters of the class `[a-zA-ZáéíóúÁÉÍÓÚñÑ\s]`, without its `\s`. -/
def esLetraNombre (c : Char) : Bool :=
  let n := c.toNat
  (decide (97 ≤ n) && decide (n ≤ 122)) || (decide (65 ≤ n) && decide (n ≤ 90)) ||
  n == 0xE1 || n == 0xE9 || n == 0xED || n == 0xF3 || n == 0xFA ||
  n == 0xC1 || n == 0xC9 || n == 0xCD || n == 0xD3 || n == 0xDA ||
  n == 0xF1 || n == 0xD1

/-- The whole class `[a-zA-ZáéíóúÁÉÍÓÚñÑ\s]`. -/
def esCaracterNombre (c : Char) : Bool := esLetraNombre c || esEspacioJS c

/-- Matcher for the anchored patterns `^[clase]{minimo,}$`: every character
is consumed by the class and at least `minimo` of them are read before the
end of the input. -/
def coincideClase (clase : Char → Bool) : Nat → List Char → Bool
  | minimo, [] => minimo == 0
  | minimo, c :: cs => clase c && coincideClase clase (minimo - 1) cs

/-- The method `trim` on the characters of a string. -/
def recortar (l : List Char) : List Char :=
  ((l.dropWhile esEspacioJS).reverse.dropWhile esEspacioJS).reverse

/-! ## `parseInt` -/

/-- Value of a digit of radix up to 16 (`0-9`, `a-f`, `A-F`); `none` for any
other character. -/
def valorDigito (c : Char) : Option Nat :=
  let n := c.toNat
  if 48 ≤ n ∧ n ≤ 57 then some (n - 48)
  else if 97 ≤ n ∧ n ≤ 102 then some (n - 87)
  else if 65 ≤ n ∧ n ≤ 70 then some (n - 55)
  else none

/-- Whether a character is a digit of the given radix. -/
def esDigitoBase (base : Nat) (c : Char) : Bool :=
  match valorDigito c with
  | some v => decide (v < base)
  | none => false

/-- The integer a digit sequence denotes in the given radix. -/
def valorEnBase (base : Nat) (l : List Char) : Nat :=
  l.foldl (fun acc c => acc * base + (valorDigito c).getD 0) 0

/-- The optional sign of `parseInt`: whether it is a minus, and the rest. -/
def leerSigno : List Char → Bool × List Char
  | '-' :: r => (true, r)
  | '+' :: r => (false, r)
  | l => (false, l)

/-- The optional prefix `0x`/`0X` of `parseInt`: the radix, and the rest. -/
def leerPrefijo : List Char → Nat × List Char
  | '0' :: 'x' :: r => (16, r)
  | '0' :: 'X' :: r => (16, r)
  | l => (10, l)

/-- The global `parseInt` with one argument: leading white space is skipped,
a sign is read, `0x`/`0X` switches to radix 16, the longest run of digits is
taken (NaN when it is empty) and its value is converted to a number.  The
conversion is the correctly rounded one (for more than 20 significant digits
ECMAScript also allows an approximation). -/
def parseInt (s : String) : Numero :=
  let signo := leerSigno (s.toList.dropWhile esEspacioJS)
  let prefijo := leerPrefijo signo.2
  let z := prefijo.2.takeWhile (esDigitoBase prefijo.1)
  if z.isEmpty then .nan
  else redondear (if signo.1 then -(valorEnBase prefijo.1 z : Int) else (valorEnBase prefijo.1 z : Int))

/-! ## Validators -/

/-- The function `validarNombreCompleto`: `/^[a-zA-ZáéíóúÁÉÍÓÚñÑ\s]{2,}$/` tested
on the trimmed name. -/
def validarNombreCompleto (nombre : String) : Bool :=
  coincideClase esCaracterNombre 2 (recortar nombre.toList)

/-- The function `validarCantidadCompleta`: `/^\d+$/` and `parseInt(cantidad) > 0`. -/
def validarCantidadCompleta (cantidad : String) : Bool :=
  coincideClase esDigito 1 cantidad.toList && (parseInt cantidad).mayorQue (.fin 0)

/-! ## Data model -/

/-- The only exception the modelled statements can raise: reading a property
of `undefined`. -/
inductive ErrorJS where
  | typeError
  deriving DecidableEq, Repr

/-- A sale record, with the fields `procesarVenta` gives it. -/
structure Venta where
  id : Int
  nombre : String
  categoria : String
  cantidad : Numero
  fecha : String
  total : Numero
  deriving DecidableEq, Repr

/-- One bucket `{ cantidad, total }` of the summary. -/
structure Acumulado where
  cantidad : Numero
  total : Numero
  deriving DecidableEq, Repr

/-- The object `resumen`. -/
structure Resumen where
  vip : Acumulado
  butacas : Acumulado
  generales : Acumulado
  totalGeneral : Acumulado
  deriving DecidableEq, Repr

/-- The own property names of `resumen`. -/
inductive Clave where
  | vip
  | butacas
  | generales
  | totalGeneral
  deriving DecidableEq, Repr

/-- The property name as the script writes it. -/
def Clave.nombre : Clave → String
  | .vip => "vip"
  | .butacas => "butacas"
  | .generales => "generales"
  | .totalGeneral => "totalGeneral"

/-- Own-property lookup on `resumen`: the key a category string names. -/
def claveResumen (categoria : String) : Option Clave :=
  if categoria = "vip" then some .vip
  else if categoria = "butacas" then some .butacas
  else if categoria = "generales" then some .generales
  else if categoria = "totalGeneral" then some .totalGeneral
  else none

/-- Read one bucket. -/
def Resumen.obtener (r : Resumen) : Clave → Acumulado
  | .vip => r.vip
  | .butacas => r.butacas
  | .generales => r.generales
  | .totalGeneral => r.totalGeneral

/-- Replace one bucket. -/
def Resumen.poner (r : Resumen) (k : Clave) (a : Acumulado) : Resumen :=
  match k with
  | .vip => { r with vip := a }
  | .butacas => { r with butacas := a }
  | .generales => { r with generales := a }
  | .totalGeneral => { r with totalGeneral := a }

/-- The mutable globals `ventas` and `resumen`. -/
structure Estado where
  ventas : List Venta
  resumen : Resumen
  deriving DecidableEq, Repr

/-- The bucket `{ cantidad: 0, total: 0 }`. -/
def Acumulado.cero : Acumulado := { cantidad := .fin 0, total := .fin 0 }

/-- The globals as the script initialises them. -/
def Estado.inicial : Estado :=
  { ventas := []
    resumen := { vip := .cero, butacas := .cero, generales := .cero, totalGeneral := .cero } }

/-- The table `PRECIOS`. -/
def PRECIOS : List (String × Numero) :=
  [("vip", .fin 50), ("butacas", .fin 30), ("generales", .fin 15)]

/-- The fields of the form: the values of `nombreInput`, `categoriaSelect`
and `cantidadInput`. -/
structure Formulario where
  nombre : String
  categoria : String
  cantidad : String
  deriving DecidableEq, Repr

/-! ## Operations -/

/-- The function `calcularTotal`: `PRECIOS[categoria] * cantidad`.  A category
that is no key of the table reads `undefined` (or an inherited member of
`Object.prototype`), which the product converts to NaN.  No path throws. -/
def calcularTotal (categoria : String) (cantidad : Numero) : Except ErrorJS Numero :=
  match PRECIOS.lookup categoria with
  | some precio => .ok (precio.multiplicar cantidad)
  | none => .ok .nan

/-- Bucket after `cantidad += venta.cantidad; total += venta.total`. -/
def Acumulado.mas (a : Acumulado) (venta : Venta) : Acumulado :=
  { cantidad := a.cantidad.sumar venta.cantidad, total := a.total.sumar venta.total }

/-- Bucket after `cantidad -= venta.cantidad; total -= venta.total`. -/
def Acumulado.menos (a : Acumulado) (venta : Venta) : Acumulado :=
  { cantidad := a.cantidad.restar venta.cantidad, total := a.total.restar venta.total }

/-- The two compound assignments on `resumen[categoria]`.  For an own key the
bucket is replaced.  Otherwise the lookup goes to the prototype chain:
`heredada categoria` tells whether it finds a value there (`toString`,
`constructor`, ...), in which case the assignments land outside `resumen`;
if it finds none, reading `.cantidad` of `undefined` throws before anything
is written. -/
def modificarCategoria (heredada : String → Bool) (r : Resumen) (categoria : String)
    (f : Acumulado → Acumulado) : Except ErrorJS Resumen :=
  match claveResumen categoria with
  | some k => .ok (r.poner k (f (r.obtener k)))
  | none => if heredada categoria then .ok r else .error .typeError

/-- The function `actualizarResumen`. -/
def actualizarResumen (heredada : String → Bool) (venta : Venta) (r : Resumen) :
    Except ErrorJS Resumen :=
  match modificarCategoria heredada r venta.categoria (fun a => a.mas venta) with
  | .error err => .error err
  | .ok r1 => .ok { r1 with totalGeneral := r1.totalGeneral.mas venta }

/-- The function `agregarVenta`: `ventas.push(venta)`. -/
def agregarVenta (venta : Venta) (e : Estado) : Estado :=
  { e with ventas := e.ventas ++ [venta] }

/-- The method `findIndex`: position of the first element satisfying the
predicate, `none` standing for -1. -/
def findIndex (p : Venta → Bool) : List Venta → Option Nat
  | [] => none
  | v :: vs => if p v then some 0 else (findIndex p vs).map (· + 1)

/-- How a call of `eliminarVenta` ends. -/
inductive FinEliminar where
  | noEncontrada
  | eliminada
  | excepcion (err : ErrorJS)
  deriving DecidableEq, Repr

/-- The function `eliminarVenta`. -/
def eliminarVenta (heredada : String → Bool) (id : Int) (e : Estado) : FinEliminar × Estado :=
  match findIndex (fun venta => venta.id == id) e.ventas with
  | none => (.noEncontrada, e)
  | some ventaIndex =>
    match e.ventas[ventaIndex]? with
    | none => (.excepcion .typeError, e)
    | some venta =>
      match modificarCategoria heredada e.resumen venta.categoria (fun a => a.menos venta) with
      | .error err => (.excepcion err, e)
      | .ok r1 =>
        (.eliminada,
          { ventas := e.ventas.eraseIdx ventaIndex
            resumen := { r1 with totalGeneral := r1.totalGeneral.menos venta } })

/-- The function `validarFormulario`: the three checks, all of which run. -/
def validarFormulario (f : Formulario) : Bool :=
  let esValido := true
  let esValido := if !validarNombreCompleto f.nombre then false else esValido
  let esValido := if f.categoria == "" then false else esValido
  let esValido := if !validarCantidadCompleta f.cantidad then false else esValido
  esValido

/-- How a call of `procesarVenta` ends. -/
inductive FinVenta where
  | rechazada
  | registrada
  | excepcion (err : ErrorJS)
  deriving DecidableEq, Repr

/-- The object literal of `procesarVenta` with its `total` assigned. -/
def construirVenta (f : Formulario) (ahora : Int) (fecha : String) (total : Numero) : Venta :=
  { id := ahora
    nombre := String.mk (recortar f.nombre.toList)
    categoria := f.categoria
    cantidad := parseInt f.cantidad
    fecha := fecha
    total := total }

/-- The statements `agregarVenta(venta); actualizarResumen(venta);`.  An
exception of the second leaves the sale pushed. -/
def registrarVenta (heredada : String → Bool) (venta : Venta) (e : Estado) : FinVenta × Estado :=
  let e1 := agregarVenta venta e
  match actualizarResumen heredada venta e1.resumen with
  | .error err => (.excepcion err, e1)
  | .ok r => (.registrada, { e1 with resumen := r })

/-- The function `procesarVenta`; `ahora` is `Date.now()` and `fecha` the
formatted date. -/
def procesarVenta (heredada : String → Bool) (f : Formulario) (ahora : Int) (fecha : String)
    (e : Estado) : FinVenta × Estado :=
  if !validarFormulario f then (.rechazada, e)
  else
    match calcularTotal f.categoria (parseInt f.cantidad) with
    | .error err => (.excepcion err, e)
    | .ok total => registrarVenta heredada (construirVenta f ahora fecha total) e

/-- The names a fresh `Object.prototype` resolves. -/
def heredadaEstandar (nombre : String) : Bool :=
  nombre ∈ ["constructor", "hasOwnProperty", "isPrototypeOf", "propertyIsEnumerable",
    "toLocaleString", "toString", "valueOf", "__proto__", "__defineGetter__",
    "__defineSetter__", "__lookupGetter__", "__lookupSetter__"]

/-! ## Runs -/

/-- A user action on the ledger: a registration (the two statements of
`procesarVenta`) or a click on a delete button. -/
inductive Evento where
  | registrar (venta : Venta)
  | eliminar (id : Int)
  deriving DecidableEq, Repr

/-- The state after one action. -/
def paso (heredada : String → Bool) (e : Estado) : Evento → Estado
  | .registrar venta => (registrarVenta heredada venta e).2
  | .eliminar id => (eliminarVenta heredada id e).2

/-- The state after a sequence of actions. -/
def ejecutar (heredada : String → Bool) (evs : List Evento) (e : Estado) : Estado :=
  evs.foldl (paso heredada) e

/-- The sales a sequence of actions registers, in order. -/
def ventasRegistradas : List Evento → List Venta
  | [] => []
  | .registrar venta :: evs => venta :: ventasRegistradas evs
  | .eliminar _ :: evs => ventasRegistradas evs

/-- A ledger operation alone: `agregarVenta(venta)` or `eliminarVenta(id)`. -/
inductive Operacion where
  | agregar (venta : Venta)
  | eliminar (id : Int)
  deriving DecidableEq, Repr

/-- The state after one ledger operation, run against the prototype chain
`heredada` of that moment. -/
def aplicar (heredada : String → Bool) (e : Estado) : Operacion → Estado
  | .agregar venta => agregarVenta venta e
  | .eliminar id => (eliminarVenta heredada id e).2

/-- The sales a sequence of ledger operations appends, in order. -/
def ventasAgregadas : List Operacion → List Venta
  | [] => []
  | .agregar venta :: ops => venta :: ventasAgregadas ops
  | .eliminar _ :: ops => ventasAgregadas ops

/-- ASCII punctuation: the printable ASCII characters that are neither
letters, digits nor the space. -/
def esPuntuacionASCII (c : Char) : Bool :=
  let n := c.toNat
  (decide (33 ≤ n) && decide (n ≤ 47)) || (decide (58 ≤ n) && decide (n ≤ 64)) ||
  (decide (91 ≤ n) && decide (n ≤ 96)) || (decide (123 ≤ n) && decide (n ≤ 126))

/-- Whether the lookup `resumen[categoria]` of `eliminarVenta` finds something
to assign to: an own key of `resumen`, or a member the prototype chain
resolves. -/
def resuelve (heredada : String → Bool) (categoria : String) : Bool :=
  (claveResumen categoria).isSome || heredada categoria

/-- The state after a sequence of ledger operations.  Each operation comes
with the prototype chain it runs against, which a run can change: removing a
sale whose category is `__proto__` gives `Object.prototype` the members
`cantidad` and `total`. -/
def ejecutarOperaciones : List ((String → Bool) × Operacion) → Estado → Estado
  | [], e => e
  | (heredada, op) :: ops, e => ejecutarOperaciones ops (aplicar heredada e op)

/-- Number of calls of `eliminarVenta` in a run that remove a sale. -/
def eliminacionesLogradas : List ((String → Bool) × Operacion) → Estado → Nat
  | [], _ => 0
  | (_, .agregar venta) :: ops, e => eliminacionesLogradas ops (agregarVenta venta e)
  | (heredada, .eliminar id) :: ops, e =>
    (if (eliminarVenta heredada id e).1 = .eliminada then 1 else 0)
      + eliminacionesLogradas ops (eliminarVenta heredada id e).2

/-- The ledger a removal is to leave, on lists alone: when a sale has the id
and the summary lookup for the first such sale does not throw, the ledger
without that first sale; otherwise the ledger as it was. -/
def libroTrasEliminar (heredada : String → Bool) (id : Int) (l : List Venta) : List Venta :=
  match l.find? (fun v => v.id == id) with
  | some v => if resuelve heredada v.categoria then l.eraseP (fun w => w.id == id) else l
  | none => l

/-- The ledger a sequence of operations is to leave, on lists alone: the
sales appended, each at the end, without those removed. -/
def libroEsperado : List ((String → Bool) × Operacion) → List Venta → List Venta
  | [], l => l
  | (_, .agregar venta) :: ops, l => libroEsperado ops (l ++ [venta])
  | (heredada, .eliminar id) :: ops, l => libroEsperado ops (libroTrasEliminar heredada id l)

/-! ## Sample data -/

/-- A clock reading, as `Date.now()` returns it. -/
def relojEjemplo : Int := 1700000000000

/-- A formatted date. -/
def fechaEjemplo : String := "14/11/2023, 17:13:20"

/-- Two VIP tickets for Ana Lopez. -/
def formularioAna : Formulario := { nombre := "Ana Lopez", categoria := "vip", cantidad := "2" }

/-- Three general tickets for Luis Ruiz. -/
def formularioLuis : Formulario :=
  { nombre := "Luis Ruiz", categoria := "generales", cantidad := "3" }

/-- A form whose category is no key of the price table. -/
def formularioPlatea : Formulario :=
  { nombre := "Ana Lopez", categoria := "platea", cantidad := "2" }

/-- The sale `procesarVenta` builds from `formularioAna`. -/
def ventaAna : Venta :=
  { id := relojEjemplo, nombre := "Ana Lopez", categoria := "vip", cantidad := .fin 2,
    fecha := fechaEjemplo, total := .fin 100 }

/-- The sale `procesarVenta` builds from `formularioLuis` at the same clock
reading. -/
def ventaLuis : Venta :=
  { id := relojEjemplo, nombre := "Luis Ruiz", categoria := "generales", cantidad := .fin 3,
    fecha := fechaEjemplo, total := .fin 45 }

/-- The state after both forms are processed at the same clock reading. -/
def estadoMismoReloj : Estado :=
  (procesarVenta heredadaEstandar formularioLuis relojEjemplo fechaEjemplo
    (procesarVenta heredadaEstandar formularioAna relojEjemplo fechaEjemplo .inicial).2).2

/-! ## Sums over the ledger -/

namespace Numero

/-- The integer a number holds (0 for the infinities and NaN). -/
def valor : Numero → Int
  | fin z => z
  | _ => 0

/-- The magnitude of the integer a number holds. -/
def magnitud : Numero → Nat
  | fin z => z.natAbs
  | _ => 0

/-- Whether a number is an integer (neither an infinity nor NaN). -/
def esEntero : Numero → Bool
  | fin _ => true
  | _ => false

end Numero

/-- Sum of `cantidad` over a list of sales. -/
def sumaCantidad (l : List Venta) : Int := (l.map (fun v => v.cantidad.valor)).sum

/-- Sum of `total` over a list of sales. -/
def sumaTotal (l : List Venta) : Int := (l.map (fun v => v.total.valor)).sum

/-- Sum of the magnitudes of `cantidad` over a list of sales. -/
def pesoCantidad (l : List Venta) : Nat := (l.map (fun v => v.cantidad.magnitud)).sum

/-- Sum of the magnitudes of `total` over a list of sales. -/
def pesoTotal (l : List Venta) : Nat := (l.map (fun v => v.total.magnitud)).sum

/-- The sales of a ledger with a given category, in ledger order. -/
def deCategoria (categoria : String) (l : List Venta) : List Venta :=
  l.filter (fun v => v.categoria == categoria)

/-- The bucket holding the sums of `cantidad` and `total` over a list of sales. -/
def acumuladoDe (l : List Venta) : Acumulado :=
  { cantidad := .fin (sumaCantidad l), total := .fin (sumaTotal l) }

/-- The summary the specification describes, recomputed from the ledger alone:
each category bucket sums the sales of that category, the grand total sums
all sales. -/
def resumenDesdeCero (l : List Venta) : Resumen :=
  { vip := acumuladoDe (deCategoria "vip" l)
    butacas := acumuladoDe (deCategoria "butacas" l)
    generales := acumuladoDe (deCategoria "generales" l)
    totalGeneral := acumuladoDe l }

/-- A sale as the data model has it: a category of the price table and integer
quantity and total. -/
def Venta.bienFormada (v : Venta) : Prop :=
  (v.categoria = "vip" ∨ v.categoria = "butacas" ∨ v.categoria = "generales") ∧
  v.cantidad.esEntero = true ∧ v.total.esEntero = true

/-- The sums of magnitudes of a list of sales stay within the exact range. -/
def Acotada (l : List Venta) : Prop :=
  pesoCantidad l ≤ limiteExacto ∧ pesoTotal l ≤ limiteExacto

instance (v : Venta) : Decidable v.bienFormada := by
  unfold Venta.bienFormada
  infer_instance

instance (l : List Venta) : Decidable (Acotada l) := by
  unfold Acotada
  infer_instance

/-- A form asking for 2^53 general tickets. -/
def formularioGrande : Formulario :=
  { nombre := "Ana Lopez", categoria := "generales", cantidad := "9007199254740992" }

/-- A form asking for one general ticket. -/
def formularioUno : Formulario :=
  { nombre := "Luis Ruiz", categoria := "generales", cantidad := "1" }

/-- The sale `procesarVenta` builds from `formularioGrande`. -/
def ventaGrande : Venta :=
  { id := relojEjemplo, nombre := "Ana Lopez", categoria := "generales",
    cantidad := .fin 9007199254740992, fecha := fechaEjemplo,
    total := .fin 135107988821114880 }

/-- The sale `procesarVenta` builds from `formularioUno` one millisecond later. -/
def ventaUno : Venta :=
  { id := relojEjemplo + 1, nombre := "Luis Ruiz", categoria := "generales",
    cantidad := .fin 1, fecha := fechaEjemplo, total := .fin 15 }

/-- The state after `formularioGrande` is processed from the initial state. -/
def estadoGrande : Estado :=
  (procesarVenta heredadaEstandar formularioGrande relojEjemplo fechaEjemplo .inicial).2

/-- A sale of three general tickets registered after `ventaAna`. -/
def ventaLuisDespues : Venta :=
  { id := relojEjemplo + 1, nombre := "Luis Ruiz", categoria := "generales",
    cantidad := .fin 3, fecha := fechaEjemplo, total := .fin 45 }

/-- The scenario of the specification: two registrations, then the removal
of the first sale. -/
def eventosEjemplo : List Evento :=
  [.registrar ventaAna, .registrar ventaLuisDespues, .eliminar relojEjemplo]

/-- A run that leaves the exact range: 2^53 tickets, one more, and the
removal of the first sale. -/
def eventosGrandes : List Evento :=
  [.registrar ventaGrande, .registrar ventaUno, .eliminar relojEjemplo]

/-! ## Stored data: JSON values and `JSON.parse` -/

/-- A number as a JSON text writes it: sign, decimal mantissa and decimal
exponent.  It stands for the double nearest to `± mantisa * 10 ^ exponente`. -/
structure NumeroJSON where
  negativo : Bool
  mantisa : Nat
  exponente : Int
  deriving DecidableEq, Repr

/-- Whether the double a JSON number stands for is zero: its magnitude is at
most 2^-1075, half the least positive double (the tie goes to zero). -/
def NumeroJSON.esCero (n : NumeroJSON) : Bool :=
  n.mantisa == 0 ||
    (decide (n.exponente < 0) &&
      decide (n.mantisa * (2 ^ 215) ^ 5 ≤ 10 ^ n.exponente.natAbs))

/-- The values `JSON.parse` returns.  Strings are sequences of UTF-16 code
units; an object keeps its members in the order of the text, a repeated name
included (the last one is the one a lookup finds). -/
inductive ValorJS where
  | nulo
  | booleano (b : Bool)
  | numero (n : NumeroJSON)
  | cadena (unidades : List Nat)
  | arreglo (elementos : List ValorJS)
  | objeto (propiedades : List (List Nat × ValorJS))

/-- The UTF-16 code units of a character. -/
def unidadesDe (c : Char) : List Nat :=
  if c.toNat < 0x10000 then [c.toNat]
  else [0xD800 + (c.toNat - 0x10000) / 0x400, 0xDC00 + (c.toNat - 0x10000) % 0x400]

/-- The UTF-16 code units of a string. -/
def unidadesDeCadena (s : String) : List Nat := (s.toList.map unidadesDe).flatten

/-- The tokens of a JSON text; scalar values are tokens of their own. -/
inductive Token where
  | llaveAbre
  | llaveCierra
  | corcheteAbre
  | corcheteCierra
  | coma
  | dosPuntos
  | escalar (v : ValorJS)

/-- Where the scanner stands inside a JSON number. -/
inductive FaseNumero where
  | menos
  | cero
  | entero
  | punto
  | fraccion
  | e
  | eSigno
  | exponente
  deriving DecidableEq, Repr

/-- What has been read of a JSON number. -/
structure LiteralNumero where
  negativo : Bool
  mantisa : Nat
  decimales : Nat
  expNegativo : Bool
  exp : Nat
  deriving DecidableEq, Repr

/-- The state of the scanner between two characters. -/
inductive ModoLexico where
  | libre
  | cadena (acc : List Nat)
  | escape (acc : List Nat)
  | unicode (acc : List Nat) (digitos : List Nat)
  | numero (fase : FaseNumero) (lit : LiteralNumero)
  | palabra (resto : List Char) (valor : ValorJS)

/-- The scanner on a character that may start a token: JSON white space
(tab, line feed, carriage return, space), punctuation, the opening quote of a
string, the first character of a number or of `true`, `false`, `null`. -/
def inicioToken (c : Char) : Option (ModoLexico × List Token) :=
  if c = ' ' ∨ c = '\t' ∨ c = '\n' ∨ c = '\r' then some (.libre, [])
  else if c = '\x7b' then some (.libre, [.llaveAbre])
  else if c = '\x7d' then some (.libre, [.llaveCierra])
  else if c = '[' then some (.libre, [.corcheteAbre])
  else if c = ']' then some (.libre, [.corcheteCierra])
  else if c = ',' then some (.libre, [.coma])
  else if c = ':' then some (.libre, [.dosPuntos])
  else if c = '"' then some (.cadena [], [])
  else if c = '-' then some (.numero .menos ⟨true, 0, 0, false, 0⟩, [])
  else if c = '0' then some (.numero .cero ⟨false, 0, 0, false, 0⟩, [])
  else if esDigito c then some (.numero .entero ⟨false, c.toNat - 48, 0, false, 0⟩, [])
  else if c = 't' then some (.palabra ['r', 'u', 'e'] (.booleano true), [])
  else if c = 'f' then some (.palabra ['a', 'l', 's', 'e'] (.booleano false), [])
  else if c = 'n' then some (.palabra ['u', 'l', 'l'] .nulo, [])
  else none

/-- The token of a number that ends here; none when it ends too early. -/
def cerrarNumero (fase : FaseNumero) (lit : LiteralNumero) : Option Token :=
  match fase with
  | .cero | .entero | .fraccion | .exponente =>
    some (.escalar (.numero
      { negativo := lit.negativo
        mantisa := lit.mantisa
        exponente := (if lit.expNegativo then -(lit.exp : Int) else (lit.exp : Int))
          - (lit.decimales : Int) }))
  | _ => none

/-- A number ends before `c`: its token, then `c` as the start of a token. -/
def cerrarYSeguir (fase : FaseNumero) (lit : LiteralNumero) (c : Char) :
    Option (ModoLexico × List Token) :=
  match cerrarNumero fase lit, inicioToken c with
  | some t, some (modo, ts) => some (modo, t :: ts)
  | _, _ => none

/-- The scanner inside a number. -/
def pasoNumero (fase : FaseNumero) (lit : LiteralNumero) (c : Char) :
    Option (ModoLexico × List Token) :=
  let d := c.toNat - 48
  match fase with
  | .menos =>
    if c = '0' then some (.numero .cero lit, [])
    else if esDigito c then some (.numero .entero { lit with mantisa := d }, [])
    else none
  | .cero =>
    if c = '.' then some (.numero .punto lit, [])
    else if c = 'e' ∨ c = 'E' then some (.numero .e lit, [])
    else cerrarYSeguir fase lit c
  | .entero =>
    if esDigito c then some (.numero .entero { lit with mantisa := lit.mantisa * 10 + d }, [])
    else if c = '.' then some (.numero .punto lit, [])
    else if c = 'e' ∨ c = 'E' then some (.numero .e lit, [])
    else cerrarYSeguir fase lit c
  | .punto =>
    if esDigito c then
      some (.numero .fraccion
        { lit with mantisa := lit.mantisa * 10 + d, decimales := lit.decimales + 1 }, [])
    else none
  | .fraccion =>
    if esDigito c then
      some (.numero .fraccion
        { lit with mantisa := lit.mantisa * 10 + d, decimales := lit.decimales + 1 }, [])
    else if c = 'e' ∨ c = 'E' then some (.numero .e lit, [])
    else cerrarYSeguir fase lit c
  | .e =>
    if c = '+' then some (.numero .eSigno lit, [])
    else if c = '-' then some (.numero .eSigno { lit with expNegativo := true }, [])
    else if esDigito c then some (.numero .exponente { lit with exp := d }, [])
    else none
  | .eSigno =>
    if esDigito c then some (.numero .exponente { lit with exp := d }, [])
    else none
  | .exponente =>
    if esDigito c then some (.numero .exponente { lit with exp := lit.exp * 10 + d }, [])
    else cerrarYSeguir fase lit c

/-- The code unit of a one-character escape of a JSON string. -/
def unidadDeEscape (c : Char) : Option Nat :=
  if c = '"' then some 0x22
  else if c = '\\' then some 0x5C
  else if c = '/' then some 0x2F
  else if c = 'b' then some 0x08
  else if c = 'f' then some 0x0C
  else if c = 'n' then some 0x0A
  else if c = 'r' then some 0x0D
  else if c = 't' then some 0x09
  else none

/-- One character of the scanner: the new state and the tokens completed. -/
def pasoLexico (modo : ModoLexico) (c : Char) : Option (ModoLexico × List Token) :=
  match modo with
  | .libre => inicioToken c
  | .cadena acc =>
    if c = '"' then some (.libre, [.escalar (.cadena acc)])
    else if c = '\\' then some (.escape acc, [])
    else if c.toNat < 0x20 then none
    else some (.cadena (acc ++ unidadesDe c), [])
  | .escape acc =>
    if c = 'u' then some (.unicode acc [], [])
    else
      match unidadDeEscape c with
      | some u => some (.cadena (acc ++ [u]), [])
      | none => none
  | .unicode acc digitos =>
    match valorDigito c with
    | none => none
    | some h =>
      if digitos.length = 3 then
        some (.cadena (acc ++ [(digitos ++ [h]).foldl (fun n x => n * 16 + x) 0]), [])
      else some (.unicode acc (digitos ++ [h]), [])
  | .numero fase lit => pasoNumero fase lit c
  | .palabra resto valor =>
    match resto with
    | [] => none
    | r :: rs =>
      if c = r then
        (if rs.isEmpty then some (.libre, [.escalar valor]) else some (.palabra rs valor, []))
      else none

/-- The tokens of a character sequence; none when it is no sequence of
JSON tokens. -/
def lexico : ModoLexico → List Char → Option (List Token)
  | .libre, [] => some []
  | .numero fase lit, [] => (cerrarNumero fase lit).map (fun t => [t])
  | _, [] => none
  | modo, c :: cs =>
    match pasoLexico modo c with
    | none => none
    | some (modo2, ts) => (lexico modo2 cs).map (fun resto => ts ++ resto)

/-- An array or object under construction; its members are kept newest
first. -/
inductive Marco where
  | arreglo (elementos : List ValorJS)
  | objeto (propiedades : List (List Nat × ValorJS)) (clave : Option (List Nat))

/-- What the grammar allows next. -/
inductive Espera where
  | valor
  | valorOCierre
  | claveOCierre
  | clave
  | dosPuntos
  | comaOCierre
  | fin (v : ValorJS)

/-- The state of the syntax analysis between two tokens. -/
structure EstadoAnalisis where
  pila : List Marco
  espera : Espera

/-- A value is complete: it is the whole text, or a member of the innermost
open array or object. -/
def reducir (pila : List Marco) (v : ValorJS) : Option EstadoAnalisis :=
  match pila with
  | [] => some { pila := [], espera := .fin v }
  | .arreglo elementos :: resto =>
    some { pila := .arreglo (v :: elementos) :: resto, espera := .comaOCierre }
  | .objeto propiedades (some clave) :: resto =>
    some { pila := .objeto ((clave, v) :: propiedades) none :: resto, espera := .comaOCierre }
  | .objeto _ none :: _ => none

/-- The innermost open array or object closes. -/
def cerrarMarco (pila : List Marco) (t : Token) : Option EstadoAnalisis :=
  match pila, t with
  | .arreglo elementos :: resto, .corcheteCierra => reducir resto (.arreglo elementos.reverse)
  | .objeto propiedades none :: resto, .llaveCierra => reducir resto (.objeto propiedades.reverse)
  | _, _ => none

/-- A value starts (or is, when scalar) at this token. -/
def empezarValor (pila : List Marco) (t : Token) : Option EstadoAnalisis :=
  match t with
  | .corcheteAbre => some { pila := .arreglo [] :: pila, espera := .valorOCierre }
  | .llaveAbre => some { pila := .objeto [] none :: pila, espera := .claveOCierre }
  | .escalar v => reducir pila v
  | _ => none

/-- A member name is read. -/
def leerClave (pila : List Marco) (t : Token) : Option EstadoAnalisis :=
  match pila, t with
  | .objeto propiedades none :: resto, .escalar (.cadena clave) =>
    some { pila := .objeto propiedades (some clave) :: resto, espera := .dosPuntos }
  | _, _ => none

/-- One token of the syntax analysis. -/
def pasoAnalisis (st : EstadoAnalisis) (t : Token) : Option EstadoAnalisis :=
  match st.espera with
  | .valor => empezarValor st.pila t
  | .valorOCierre =>
    match t with
    | .corcheteCierra => cerrarMarco st.pila t
    | _ => empezarValor st.pila t
  | .claveOCierre =>
    match t with
    | .llaveCierra => cerrarMarco st.pila t
    | _ => leerClave st.pila t
  | .clave => leerClave st.pila t
  | .dosPuntos =>
    match t with
    | .dosPuntos => some { st with espera := .valor }
    | _ => none
  | .comaOCierre =>
    match st.pila, t with
    | .arreglo _ :: _, .coma => some { st with espera := .valor }
    | .objeto _ _ :: _, .coma => some { st with espera := .clave }
    | _, _ => cerrarMarco st.pila t
  | .fin _ => none

/-- The value of a token sequence; none when it is not one JSON value. -/
def analizarTokens : EstadoAnalisis → List Token → Option ValorJS
  | st, [] =>
    match st.espera with
    | .fin v => some v
    | _ => none
  | st, t :: ts =>
    match pasoAnalisis st t with
    | none => none
    | some st2 => analizarTokens st2 ts

/-- The function `JSON.parse` without reviver; none stands for the
SyntaxError it throws. -/
def JSON.parse (texto : String) : Option ValorJS :=
  match lexico .libre texto.toList with
  | none => none
  | some ts => analizarTokens { pila := [], espera := .valor } ts

/-! ## `cargarDatos` -/

/-- The exceptions raised inside the `try` block of `cargarDatos`. -/
inductive ErrorCarga where
  | syntaxError
  | typeError
  deriving DecidableEq, Repr

/-- The globals `ventas` and `resumen` as `cargarDatos` leaves them: any
value the stored text holds. -/
structure Globales where
  ventas : ValorJS
  resumen : ValorJS

/-- The array `[]`. -/
def ventasVacias : ValorJS := .arreglo []

/-- The number `0`. -/
def ceroJSON : ValorJS := .numero { negativo := false, mantisa := 0, exponente := 0 }

/-- The object `{ cantidad: 0, total: 0 }`. -/
def cuboCero : ValorJS :=
  .objeto [(unidadesDeCadena "cantidad", ceroJSON), (unidadesDeCadena "total", ceroJSON)]

/-- The all-zero summary the script writes out in full. -/
def resumenCero : ValorJS :=
  .objeto [(unidadesDeCadena "vip", cuboCero), (unidadesDeCadena "butacas", cuboCero),
    (unidadesDeCadena "generales", cuboCero), (unidadesDeCadena "totalGeneral", cuboCero)]

/-- The empty ledger and the all-zero summary. -/
def Globales.vacios : Globales := { ventas := ventasVacias, resumen := resumenCero }

/-- The own member of that name a lookup finds: the last one in the text. -/
def propiedadPropia (propiedades : List (List Nat × ValorJS)) (nombre : List Nat) :
    Option ValorJS :=
  propiedades.reverse.lookup nombre

/-- The expressions `datos.ventas` and `datos.resumen`: a TypeError on `null`,
the own member of an object, and `undefined` (none) when the object has no
such member or `datos` is an array, a string, a number or a boolean (their
prototypes define neither name). -/
def leerMiembro (datos : ValorJS) (nombre : String) : Except ErrorCarga (Option ValorJS) :=
  match datos with
  | .nulo => .error .typeError
  | .objeto propiedades => .ok (propiedadPropia propiedades (unidadesDeCadena nombre))
  | _ => .ok none

/-- The conversion to boolean of the operator `||`. -/
def esVerdadero : ValorJS → Bool
  | .nulo => false
  | .booleano b => b
  | .numero n => !n.esCero
  | .cadena unidades => !unidades.isEmpty
  | .arreglo _ => true
  | .objeto _ => true

/-- The expression `x || porDefecto`, none standing for `undefined`. -/
def oPorDefecto (x : Option ValorJS) (porDefecto : ValorJS) : ValorJS :=
  match x with
  | some v => if esVerdadero v then v else porDefecto
  | none => porDefecto

/-- The `try` block of `cargarDatos`. -/
def intentarCargar (datosGuardados : String) : Except ErrorCarga Globales :=
  match JSON.parse datosGuardados with
  | none => .error .syntaxError
  | some datos =>
    match leerMiembro datos "ventas" with
    | .error err => .error err
    | .ok ventas =>
      match leerMiembro datos "resumen" with
      | .error err => .error err
      | .ok resumen =>
        .ok { ventas := oPorDefecto ventas ventasVacias
              resumen := oPorDefecto resumen resumenCero }

/-- The function `cargarDatos`.  `almacenado` is what
`localStorage.getItem` returns for the key of the script (none for `null`);
the result is the globals and the stored record after the call.  An absent or
empty record skips the block; an exception inside `try` is caught, the
record is removed and the globals are reset. -/
def cargarDatos (almacenado : Option String) (g : Globales) :
    Except ErrorCarga (Globales × Option String) :=
  match almacenado with
  | none => .ok (g, none)
  | some datosGuardados =>
    if datosGuardados = "" then .ok (g, some datosGuardados)
    else
      match intentarCargar datosGuardados with
      | .ok cargados => .ok (cargados, some datosGuardados)
      | .error _ => .ok (Globales.vacios, none)

/-- A stored record that is valid JSON but has neither a ledger array nor a
summary with the four buckets. -/
def registroMalformado : String :=
  "\x7b\"ventas\":\"abc\",\"resumen\":\x7b\"vip\":1\x7d\x7d"

/-- A stored record cut short, which is no JSON text. -/
def registroTruncado : String := "\x7b\"ventas\":[\x7b\"id\":17"

/-! # Theorems -/

/-! ## Rounding -/

theorem redondearNat_exacto {n : Nat} (h : n ≤ limiteExacto) : redondearNat n = some n := by
  simp [redondearNat, h]

theorem redondear_exacto {z : Int} (h : z.natAbs ≤ limiteExacto) : redondear z = .fin z := by
  unfold redondear
  rw [redondearNat_exacto h]
  by_cases hz : z < 0
  · simp only [hz, if_true]
    congr 1
    omega
  · simp only [hz, if_false]
    congr 1
    omega

theorem espaciado_pos (k n : Nat) : ∀ u, 0 < u → 0 < espaciado k n u := by
  induction k with
  | zero => intro u hu; simpa [espaciado] using hu
  | succ k ih =>
    intro u hu
    unfold espaciado
    split
    · exact hu
    · exact ih (2 * u) (by omega)

theorem espaciado_le (k n : Nat) : ∀ u, 0 < u → u ≤ n → espaciado k n u ≤ n := by
  induction k with
  | zero => intro u _ hle; simpa [espaciado] using hle
  | succ k ih =>
    intro u hu hle
    unfold espaciado
    split
    · exact hle
    · rename_i hnot
      have h2 : 2 ≤ n / u := by
        have : limiteExacto ≤ n / u := Nat.le_of_not_lt hnot
        unfold limiteExacto at this
        omega
      have h3 : 2 * u ≤ n := by
        have := (Nat.le_div_iff_mul_le hu).1 h2
        omega
      exact ih (2 * u) (by omega) h3

theorem espaciado_alcanza (k n : Nat) :
    ∀ u, n / (2 ^ k * u) < limiteExacto → n / espaciado k n u < limiteExacto := by
  induction k with
  | zero => intro u h; simpa [espaciado] using h
  | succ k ih =>
    intro u h
    unfold espaciado
    split
    · assumption
    · apply ih (2 * u)
      have e : 2 ^ k * (2 * u) = 2 ^ (k + 1) * u := by ring
      rw [e]
      exact h

/-- The doublings `espaciado n n 1` is allowed are enough: the spacing it
returns leaves a quotient below 2^53. -/
theorem espaciado_suficiente (n : Nat) : n / espaciado n n 1 < limiteExacto := by
  apply espaciado_alcanza
  rw [Nat.mul_one, Nat.div_eq_of_lt (Nat.lt_two_pow n)]
  decide

theorem redondearNat_pos {n m : Nat} (hn : 0 < n) (h : redondearNat n = some m) : 0 < m := by
  unfold redondearNat at h
  by_cases hle : n ≤ limiteExacto
  · simp only [hle, if_true, Option.some.injEq] at h
    omega
  · simp only [hle, if_false] at h
    have hu : 0 < espaciado n n 1 := espaciado_pos n n 1 (by omega)
    have hun : espaciado n n 1 ≤ n := espaciado_le n n 1 (by omega) hn
    have hq : 0 < n / espaciado n n 1 := Nat.div_pos hun hu
    have hq1 : 0 < (if espaciado n n 1 < 2 * (n % espaciado n n 1) ∨
        (2 * (n % espaciado n n 1) = espaciado n n 1 ∧ n / espaciado n n 1 % 2 = 1)
        then n / espaciado n n 1 + 1 else n / espaciado n n 1) := by
      split <;> omega
    revert h hq1
    generalize (if espaciado n n 1 < 2 * (n % espaciado n n 1) ∨
        (2 * (n % espaciado n n 1) = espaciado n n 1 ∧ n / espaciado n n 1 % 2 = 1)
        then n / espaciado n n 1 + 1 else n / espaciado n n 1) = q1
    intro h hq1
    split at h
    · exact absurd h (by simp)
    · simp only [Option.some.injEq] at h
      rw [← h]
      exact Nat.mul_pos hq1 hu

theorem mayorQue_redondear_natural (n : Nat) :
    (redondear (n : Int)).mayorQue (.fin 0) = decide (0 < n) := by
  unfold redondear
  have hneg : ¬ ((n : Int) < 0) := by omega
  simp only [Int.natAbs_ofNat, hneg, if_false]
  cases h : redondearNat n with
  | none =>
    have : 0 < n := by
      rcases Nat.eq_zero_or_pos n with h0 | h0
      · subst h0
        simp [redondearNat, limiteExacto] at h
      · exact h0
    simp [Numero.mayorQue, this]
  | some m =>
    rcases Nat.eq_zero_or_pos n with h0 | h0
    · subst h0
      simp [redondearNat, limiteExacto] at h
      subst h
      simp [Numero.mayorQue]
    · have := redondearNat_pos h0 h
      simp [Numero.mayorQue, h0, this]

/-! ## The class matcher -/

theorem coincideClase_iff (clase : Char → Bool) (l : List Char) :
    ∀ m, coincideClase clase m l = true ↔ (m ≤ l.length ∧ ∀ c ∈ l, clase c = true) := by
  induction l with
  | nil => intro m; simp [coincideClase]
  | cons c cs ih =>
    intro m
    simp only [coincideClase, Bool.and_eq_true, ih, List.length_cons, List.mem_cons,
      forall_eq_or_imp]
    constructor
    · rintro ⟨hc, hm, hall⟩
      exact ⟨by omega, hc, hall⟩
    · rintro ⟨hm, hc, hall⟩
      exact ⟨hc, by omega, hall⟩

/-! ## Digits and `parseInt` -/

theorem esDigito_iff_mem (c : Char) : esDigito c = true ↔ c ∈ "0123456789".toList := by
  constructor
  · intro h
    simp only [esDigito, Bool.and_eq_true, decide_eq_true_eq] at h
    have hc : c = Char.ofNat c.toNat := (Char.ofNat_toNat c).symm
    obtain ⟨h1, h2⟩ := h
    generalize c.toNat = n at hc h1 h2
    subst hc
    interval_cases n <;> decide
  · intro h
    have h2 : c ∈ ['0', '1', '2', '3', '4', '5', '6', '7', '8', '9'] := h
    simp only [List.mem_cons, List.mem_singleton, List.not_mem_nil, or_false] at h2
    rcases h2 with h | h | h | h | h | h | h | h | h | h <;> subst h <;> decide

theorem valorDigito_de_digito {c : Char} (h : esDigito c = true) :
    valorDigito c = some (c.toNat - 48) := by
  simp only [esDigito, Bool.and_eq_true, decide_eq_true_eq] at h
  simp [valorDigito, h]

theorem esDigitoBase_de_digito {c : Char} (h : esDigito c = true) :
    esDigitoBase 10 c = true := by
  rw [esDigitoBase, valorDigito_de_digito h]
  simp only [esDigito, Bool.and_eq_true, decide_eq_true_eq] at h
  simp only [decide_eq_true_eq]
  omega

theorem espacio_no_digito {c : Char} (h : esDigito c = true) : esEspacioJS c = false := by
  have := (esDigito_iff_mem c).1 h
  have h2 : c ∈ ['0', '1', '2', '3', '4', '5', '6', '7', '8', '9'] := this
  simp only [List.mem_cons, List.mem_singleton, List.not_mem_nil, or_false] at h2
  rcases h2 with h | h | h | h | h | h | h | h | h | h <;> subst h <;> decide

theorem valorEnBase_digitos (l : List Char) (hall : ∀ c ∈ l, esDigito c = true) :
    ∀ acc : Nat, l.foldl (fun acc c => acc * 10 + (valorDigito c).getD 0) acc
      = acc * 10 ^ l.length + Nat.ofDigits 10 (l.reverse.map (fun c => c.toNat - 48)) := by
  induction l with
  | nil => intro acc; simp
  | cons c cs ih =>
    intro acc
    have hc : esDigito c = true := hall c (List.mem_cons_self _ _)
    have hcs : ∀ d ∈ cs, esDigito d = true := fun d hd => hall d (List.mem_cons_of_mem _ hd)
    simp only [List.foldl_cons, List.reverse_cons, List.map_append, List.map_cons, List.map_nil,
      List.length_cons]
    rw [ih hcs, valorDigito_de_digito hc, Nat.ofDigits_append]
    simp only [Option.getD_some, List.length_map, List.length_reverse, Nat.ofDigits_singleton]
    ring

theorem valorEnBase_eq_ofDigits (l : List Char) (hall : ∀ c ∈ l, esDigito c = true) :
    valorEnBase 10 l = Nat.ofDigits 10 (l.reverse.map (fun c => c.toNat - 48)) := by
  unfold valorEnBase
  rw [valorEnBase_digitos l hall 0]
  simp

theorem parseInt_digitos (s : String) (hne : s.toList ≠ [])
    (hall : ∀ c ∈ s.toList, esDigito c = true) :
    parseInt s = redondear (valorEnBase 10 s.toList) := by
  unfold parseInt
  cases hl : s.toList with
  | nil => exact absurd hl hne
  | cons c cs =>
    rw [hl] at hall
    have hc : esDigito c = true := hall c (List.mem_cons_self _ _)
    have hcs : ∀ d ∈ cs, esDigito d = true := fun d hd => hall d (List.mem_cons_of_mem _ hd)
    have hsp : esEspacioJS c = false := espacio_no_digito hc
    have hmenos : c ≠ '-' := by rintro rfl; exact absurd hc (by decide)
    have hmas : c ≠ '+' := by rintro rfl; exact absurd hc (by decide)
    have hx : ∀ r, cs ≠ 'x' :: r := by
      rintro r rfl
      exact absurd (hcs 'x' (List.mem_cons_self _ _)) (by decide)
    have hX : ∀ r, cs ≠ 'X' :: r := by
      rintro r rfl
      exact absurd (hcs 'X' (List.mem_cons_self _ _)) (by decide)
    have htw : (c :: cs).takeWhile (esDigitoBase 10) = c :: cs := by
      rw [List.takeWhile_eq_self_iff]
      intro d hd
      exact esDigitoBase_de_digito (hall d hd)
    have hsigno : leerSigno (c :: cs) = (false, c :: cs) := by
      unfold leerSigno
      split
      · rename_i heq
        exact absurd (List.cons.inj heq).1 hmenos
      · rename_i heq
        exact absurd (List.cons.inj heq).1 hmas
      · rfl
    have hprefijo : leerPrefijo (c :: cs) = (10, c :: cs) := by
      unfold leerPrefijo
      split
      · rename_i heq
        exact absurd (List.cons.inj heq).2 (hx _)
      · rename_i heq
        exact absurd (List.cons.inj heq).2 (hX _)
      · rfl
    simp [List.dropWhile_cons, hsp, hsigno, hprefijo, htw]

/-! ## Trimming -/

theorem mem_dropWhile_de_no (p : Char → Bool) (c : Char) (hp : p c = false) :
    ∀ l : List Char, c ∈ l → c ∈ l.dropWhile p := by
  intro l
  induction l with
  | nil => intro h; exact h
  | cons a as ih =>
    intro h
    rw [List.dropWhile_cons]
    by_cases hpa : p a = true
    · simp only [hpa, if_true]
      rcases List.mem_cons.1 h with rfl | h
      · rw [hp] at hpa
        exact absurd hpa (by simp)
      · exact ih h
    · simp only [hpa, if_false]
      exact h

theorem mem_recortar {c : Char} {l : List Char} (hc : c ∈ l) (hp : esEspacioJS c = false) :
    c ∈ recortar l := by
  unfold recortar
  rw [List.mem_reverse]
  apply mem_dropWhile_de_no _ _ hp
  rw [List.mem_reverse]
  exact mem_dropWhile_de_no _ _ hp l hc

theorem caracterNombre_no_digito_ni_puntuacion {c : Char}
    (h : esDigito c = true ∨ esPuntuacionASCII c = true) : esCaracterNombre c = false := by
  simp only [esDigito, esPuntuacionASCII, Bool.and_eq_true, Bool.or_eq_true,
    decide_eq_true_eq] at h
  simp only [esCaracterNombre, esLetraNombre, esEspacioJS, Bool.or_eq_false_iff,
    Bool.and_eq_false_iff, decide_eq_false_iff_not, beq_eq_false_iff_ne, ne_eq]
  omega

/-! ## Validators: the theorems -/

/-- C3. `validarCantidadCompleta` accepts exactly the non-empty strings of
decimal digits whose integer value is strictly positive; "0" and "-1" are
rejected, "007" is accepted and read as 7. -/
theorem validarCantidadCompleta_correcta :
    (∀ s : String, validarCantidadCompleta s = true ↔
      (s.toList ≠ [] ∧ (∀ c ∈ s.toList, c ∈ "0123456789".toList) ∧
        0 < Nat.ofDigits 10 (s.toList.reverse.map (fun c => c.toNat - 48)))) ∧
    validarCantidadCompleta "0" = false ∧ validarCantidadCompleta "-1" = false ∧
    validarCantidadCompleta "007" = true ∧ parseInt "007" = .fin 7 := by
  refine ⟨?_, by decide, by decide, by decide, by decide⟩
  intro s
  unfold validarCantidadCompleta
  rw [Bool.and_eq_true, coincideClase_iff]
  constructor
  · rintro ⟨⟨hlen, hall⟩, hpos⟩
    have hne : s.toList ≠ [] := by
      intro h
      rw [h] at hlen
      simp at hlen
    rw [parseInt_digitos s hne hall, mayorQue_redondear_natural, decide_eq_true_eq,
      valorEnBase_eq_ofDigits _ hall] at hpos
    exact ⟨hne, fun c hc => (esDigito_iff_mem c).1 (hall c hc), hpos⟩
  · rintro ⟨hne, hmem, hpos⟩
    have hall : ∀ c ∈ s.toList, esDigito c = true := fun c hc => (esDigito_iff_mem c).2 (hmem c hc)
    refine ⟨⟨?_, hall⟩, ?_⟩
    · cases hl : s.toList with
      | nil => exact absurd hl hne
      | cons c cs => simp
    · rw [parseInt_digitos s hne hall, mayorQue_redondear_natural, decide_eq_true_eq,
        valorEnBase_eq_ofDigits _ hall]
      exact hpos

/-- C4, as the code has it. `validarNombreCompleto` accepts exactly the strings
whose trimmed form has at least 2 characters, each a letter of the class
(a-z, A-Z, á é í ó ú Á É Í Ó Ú, ñ, Ñ) or a white-space character matched by
`\s` (not only the space: also tab, line breaks, no-break space, ...).  Empty
input and input containing a digit or an ASCII punctuation character is
rejected; "A" and "John3" are rejected, "Jo" and "José" accepted. -/
theorem validarNombreCompleto_correcta :
    (∀ s : String, validarNombreCompleto s = true ↔
      (2 ≤ (recortar s.toList).length ∧
        ∀ c ∈ recortar s.toList, esLetraNombre c = true ∨ esEspacioJS c = true)) ∧
    (∀ s : String, (∃ c ∈ s.toList, esDigito c = true ∨ esPuntuacionASCII c = true) →
      validarNombreCompleto s = false) ∧
    validarNombreCompleto "" = false ∧ validarNombreCompleto "A" = false ∧
    validarNombreCompleto "John3" = false ∧ validarNombreCompleto "Jo" = true ∧
    validarNombreCompleto "José" = true := by
  have hiff : ∀ s : String, validarNombreCompleto s = true ↔
      (2 ≤ (recortar s.toList).length ∧
        ∀ c ∈ recortar s.toList, esLetraNombre c = true ∨ esEspacioJS c = true) := by
    intro s
    unfold validarNombreCompleto
    rw [coincideClase_iff]
    simp only [esCaracterNombre, Bool.or_eq_true]
  refine ⟨hiff, ?_, by decide, by decide, by decide, by decide, by decide⟩
  rintro s ⟨c, hc, hmal⟩
  have hno : esCaracterNombre c = false := caracterNombre_no_digito_ni_puntuacion hmal
  have hsp : esEspacioJS c = false := by
    simp only [esCaracterNombre, Bool.or_eq_false_iff] at hno
    exact hno.2
  have hmem : c ∈ recortar s.toList := mem_recortar hc hsp
  cases hv : validarNombreCompleto s with
  | false => rfl
  | true =>
    have := ((hiff s).1 hv).2 c hmem
    simp only [esCaracterNombre, Bool.or_eq_false_iff] at hno
    rcases this with h | h
    · rw [hno.1] at h; exact absurd h (by simp)
    · rw [hno.2] at h; exact absurd h (by simp)

/-- C4, counterexample to the claim as stated. The name "a<TAB>b" is accepted
although its middle character is neither a letter nor a space. -/
theorem validarNombreCompleto_acepta_tabulador :
    validarNombreCompleto "a\tb" = true ∧
    ∃ c ∈ recortar "a\tb".toList, esLetraNombre c = false ∧ c ≠ ' ' :=
  ⟨by decide, '\t', by decide, by decide, by decide⟩

/-! ## The ledger -/

theorem findIndex_none_iff (p : Venta → Bool) (l : List Venta) :
    findIndex p l = none ↔ ∀ v ∈ l, p v = false := by
  induction l with
  | nil => simp [findIndex]
  | cons a as ih =>
    unfold findIndex
    by_cases hp : p a = true
    · simp [hp]
    · simp only [hp, Bool.false_eq_true, if_false, Option.map_eq_none', ih, List.mem_cons,
        forall_eq_or_imp]
      simp only [Bool.not_eq_true] at hp
      simp [hp]

theorem findIndex_some (p : Venta → Bool) (l : List Venta) :
    ∀ i, findIndex p l = some i →
      ∃ pre v post, l = pre ++ v :: post ∧ pre.length = i ∧ p v = true ∧
        ∀ w ∈ pre, p w = false := by
  induction l with
  | nil => intro i h; simp [findIndex] at h
  | cons a as ih =>
    intro i h
    unfold findIndex at h
    by_cases hp : p a = true
    · simp only [hp, if_true, Option.some.injEq] at h
      exact ⟨[], a, as, rfl, by simpa using h, hp, by simp⟩
    · simp only [hp, Bool.false_eq_true, if_false, Option.map_eq_some'] at h
      obtain ⟨j, hj, hji⟩ := h
      obtain ⟨pre, v, post, hl, hlen, hpv, hpre⟩ := ih j hj
      refine ⟨a :: pre, v, post, by simp [hl], by simp [hlen, hji], hpv, ?_⟩
      intro w hw
      rcases List.mem_cons.1 hw with rfl | hw
      · simpa using hp
      · exact hpre w hw

theorem getElem?_en_corte (pre post : List Venta) (v : Venta) :
    (pre ++ v :: post)[pre.length]? = some v := by
  rw [List.getElem?_append_right (Nat.le_refl _)]
  simp

theorem eraseIdx_en_corte (pre post : List Venta) (v : Venta) :
    (pre ++ v :: post).eraseIdx pre.length = pre ++ post := by
  induction pre with
  | nil => simp
  | cons a as ih => simp [ih]

/-- Every way `eliminarVenta` can end, from the position `findIndex` returns. -/
theorem eliminarVenta_casos (heredada : String → Bool) (id : Int) (e : Estado) :
    ((∀ v ∈ e.ventas, v.id ≠ id) ∧ eliminarVenta heredada id e = (.noEncontrada, e)) ∨
    (∃ pre v post, e.ventas = pre ++ v :: post ∧ v.id = id ∧ (∀ w ∈ pre, w.id ≠ id) ∧
      ((∃ err, modificarCategoria heredada e.resumen v.categoria (fun a => a.menos v) = .error err ∧
          eliminarVenta heredada id e = (.excepcion err, e)) ∨
       (∃ r1, modificarCategoria heredada e.resumen v.categoria (fun a => a.menos v) = .ok r1 ∧
          eliminarVenta heredada id e =
            (.eliminada, { ventas := pre ++ post,
                           resumen := { r1 with totalGeneral := r1.totalGeneral.menos v } })))) := by
  unfold eliminarVenta
  cases hfi : findIndex (fun venta => venta.id == id) e.ventas with
  | none =>
    left
    refine ⟨?_, rfl⟩
    intro v hv
    have := (findIndex_none_iff _ _).1 hfi v hv
    simpa using this
  | some i =>
    right
    obtain ⟨pre, v, post, hl, hlen, hpv, hpre⟩ := findIndex_some _ _ i hfi
    refine ⟨pre, v, post, hl, by simpa using hpv, ?_, ?_⟩
    · intro w hw
      simpa using hpre w hw
    · subst hlen
      simp only [hl, getElem?_en_corte, eraseIdx_en_corte]
      cases hm : modificarCategoria heredada e.resumen v.categoria (fun a => a.menos v) with
      | error err => left; exact ⟨err, rfl, rfl⟩
      | ok r1 => right; exact ⟨r1, rfl, rfl⟩

/-- C5. `eliminarVenta(id)` takes the not-found branch exactly when no sale of
the ledger has that id, and then ledger and summary are unchanged. -/
theorem eliminarVenta_no_encontrada (heredada : String → Bool) (id : Int) (e : Estado) :
    ((eliminarVenta heredada id e).1 = .noEncontrada ↔ ∀ v ∈ e.ventas, v.id ≠ id) ∧
    ((eliminarVenta heredada id e).1 = .noEncontrada →
      (eliminarVenta heredada id e).2 = e ∧
      (eliminarVenta heredada id e).2.ventas = e.ventas ∧
      (eliminarVenta heredada id e).2.resumen.vip = e.resumen.vip ∧
      (eliminarVenta heredada id e).2.resumen.butacas = e.resumen.butacas ∧
      (eliminarVenta heredada id e).2.resumen.generales = e.resumen.generales ∧
      (eliminarVenta heredada id e).2.resumen.totalGeneral = e.resumen.totalGeneral) := by
  rcases eliminarVenta_casos heredada id e with
    ⟨hno, heq⟩ | ⟨pre, v, post, hl, hid, _, ⟨err, _, heq⟩ | ⟨r1, _, heq⟩⟩
  · rw [heq]
    exact ⟨⟨fun _ => hno, fun _ => rfl⟩, fun _ => ⟨rfl, rfl, rfl, rfl, rfl, rfl⟩⟩
  · rw [heq]
    refine ⟨⟨fun h => by simp at h, fun h => ?_⟩, fun h => by simp at h⟩
    exact absurd hid (h v (by simp [hl]))
  · rw [heq]
    refine ⟨⟨fun h => by simp at h, fun h => ?_⟩, fun h => by simp at h⟩
    exact absurd hid (h v (by simp [hl]))

theorem find?_en_corte (p : Venta → Bool) (pre post : List Venta) (v : Venta)
    (hpre : ∀ w ∈ pre, p w = false) (hv : p v = true) :
    (pre ++ v :: post).find? p = some v := by
  induction pre with
  | nil => simp [List.find?, hv]
  | cons a as ih =>
    have ha : p a = false := hpre a (List.mem_cons_self _ _)
    simp only [List.cons_append, List.find?, ha]
    exact ih (fun w hw => hpre w (List.mem_cons_of_mem _ hw))

theorem eraseP_en_corte (p : Venta → Bool) (pre post : List Venta) (v : Venta)
    (hpre : ∀ w ∈ pre, p w = false) (hv : p v = true) :
    (pre ++ v :: post).eraseP p = pre ++ post := by
  induction pre with
  | nil => simp [List.eraseP, hv]
  | cons a as ih =>
    have ha : p a = false := hpre a (List.mem_cons_self _ _)
    have h := ih (fun w hw => hpre w (List.mem_cons_of_mem _ hw))
    simpa [List.eraseP, ha] using h

theorem modificarCategoria_segun_resuelve (heredada : String → Bool) (r : Resumen)
    (categoria : String) (f : Acumulado → Acumulado) :
    (resuelve heredada categoria = true ∧ ∃ r1, modificarCategoria heredada r categoria f = .ok r1) ∨
    (resuelve heredada categoria = false ∧
      modificarCategoria heredada r categoria f = .error .typeError) := by
  unfold modificarCategoria resuelve
  cases claveResumen categoria with
  | some k => left; exact ⟨rfl, _, rfl⟩
  | none =>
    cases hh : heredada categoria with
    | true => left; exact ⟨by simp, r, by simp⟩
    | false => right; exact ⟨by simp, by simp⟩

/-- The three ways `eliminarVenta` ends, with the ledger it leaves: nothing
has the id; the first sale with the id has a category the summary lookup
cannot resolve (TypeError, nothing written); or that first sale is removed. -/
theorem eliminarVenta_exacta (heredada : String → Bool) (id : Int) (e : Estado) :
    (e.ventas.find? (fun w => w.id == id) = none ∧ (∀ w ∈ e.ventas, w.id ≠ id) ∧
      eliminarVenta heredada id e = (.noEncontrada, e)) ∨
    (∃ v, e.ventas.find? (fun w => w.id == id) = some v ∧ v ∈ e.ventas ∧ v.id = id ∧
      resuelve heredada v.categoria = false ∧
      eliminarVenta heredada id e = (.excepcion .typeError, e)) ∨
    (∃ pre v post, e.ventas.find? (fun w => w.id == id) = some v ∧
      e.ventas = pre ++ v :: post ∧ v.id = id ∧ (∀ w ∈ pre, w.id ≠ id) ∧
      resuelve heredada v.categoria = true ∧
      (eliminarVenta heredada id e).1 = .eliminada ∧
      (eliminarVenta heredada id e).2.ventas = pre ++ post ∧
      e.ventas.eraseP (fun w => w.id == id) = pre ++ post) := by
  rcases eliminarVenta_casos heredada id e with
    ⟨hno, heq⟩ | ⟨pre, v, post, hl, hid, hpre, hcasos⟩
  · left
    refine ⟨?_, hno, heq⟩
    rw [List.find?_eq_none]
    intro w hw
    simpa using hno w hw
  · right
    have hpre2 : ∀ w ∈ pre, (fun w : Venta => w.id == id) w = false := by
      intro w hw
      simpa using hpre w hw
    have hv2 : (fun w : Venta => w.id == id) v = true := by simpa using hid
    have hfind : e.ventas.find? (fun w => w.id == id) = some v := by
      rw [hl]; exact find?_en_corte _ pre post v hpre2 hv2
    have herase : e.ventas.eraseP (fun w => w.id == id) = pre ++ post := by
      rw [hl]; exact eraseP_en_corte _ pre post v hpre2 hv2
    rcases modificarCategoria_segun_resuelve heredada e.resumen v.categoria
        (fun a => a.menos v) with ⟨hres, r1, hm⟩ | ⟨hres, hm⟩
    · right
      rcases hcasos with ⟨err, hm2, _⟩ | ⟨r2, _, heq⟩
      · rw [hm] at hm2; exact absurd hm2 (by simp)
      · exact ⟨pre, v, post, hfind, hl, hid, hpre, hres, by rw [heq], by rw [heq], herase⟩
    · left
      rcases hcasos with ⟨err, hm2, heq⟩ | ⟨r2, hm2, _⟩
      · cases err
        exact ⟨v, hfind, by simp [hl], hid, hres, heq⟩
      · rw [hm] at hm2; exact absurd hm2 (by simp)

theorem eliminarVenta_libro (heredada : String → Bool) (id : Int) (e : Estado) :
    (eliminarVenta heredada id e).2.ventas = libroTrasEliminar heredada id e.ventas := by
  unfold libroTrasEliminar
  rcases eliminarVenta_exacta heredada id e with
    ⟨hf, _, heq⟩ | ⟨v, hf, _, _, hres, heq⟩ | ⟨pre, v, post, hf, _, _, _, hres, _, hv, her⟩
  · rw [hf, heq]
  · rw [hf, heq]; simp [hres]
  · rw [hf, hv]; simp [hres, her]

theorem ejecutarOperaciones_libro (ops : List ((String → Bool) × Operacion)) :
    ∀ e : Estado, (ejecutarOperaciones ops e).ventas = libroEsperado ops e.ventas := by
  induction ops with
  | nil => intro e; rfl
  | cons p ops ih =>
    intro e
    obtain ⟨heredada, op⟩ := p
    cases op with
    | agregar venta =>
      simp only [ejecutarOperaciones, libroEsperado, aplicar]
      rw [ih]
      rfl
    | eliminar id =>
      simp only [ejecutarOperaciones, libroEsperado, aplicar]
      rw [ih, eliminarVenta_libro]

theorem ejecutarOperaciones_sublista (ops : List ((String → Bool) × Operacion)) :
    ∀ (e : Estado) (reg : List Venta), e.ventas.Sublist reg →
      ((ejecutarOperaciones ops e).ventas).Sublist
        (reg ++ ventasAgregadas (ops.map Prod.snd)) := by
  induction ops with
  | nil => intro e reg h; simpa [ejecutarOperaciones, ventasAgregadas] using h
  | cons p ops ih =>
    intro e reg h
    obtain ⟨heredada, op⟩ := p
    cases op with
    | agregar venta =>
      have h1 : (aplicar heredada e (.agregar venta)).ventas.Sublist (reg ++ [venta]) := by
        simp only [aplicar, agregarVenta]
        exact List.Sublist.append h (List.Sublist.refl _)
      have := ih _ _ h1
      simpa [ejecutarOperaciones, ventasAgregadas] using this
    | eliminar id =>
      have h1 : (aplicar heredada e (.eliminar id)).ventas.Sublist reg := by
        simp only [aplicar]
        rcases eliminarVenta_casos heredada id e with
          ⟨_, heq⟩ | ⟨pre, v, post, hl, _, _, ⟨err, _, heq⟩ | ⟨r1, _, heq⟩⟩
        · rw [heq]; exact h
        · rw [heq]; exact h
        · rw [heq]
          refine List.Sublist.trans ?_ h
          rw [hl]
          exact List.Sublist.append (List.Sublist.refl _) (List.sublist_cons_self _ _)
      have := ih _ _ h1
      simpa [ejecutarOperaciones, ventasAgregadas] using this

theorem ejecutarOperaciones_longitud (ops : List ((String → Bool) × Operacion)) :
    ∀ e : Estado, ((ejecutarOperaciones ops e).ventas).length + eliminacionesLogradas ops e
      = e.ventas.length + (ventasAgregadas (ops.map Prod.snd)).length := by
  induction ops with
  | nil => intro e; simp [ejecutarOperaciones, ventasAgregadas, eliminacionesLogradas]
  | cons p ops ih =>
    intro e
    obtain ⟨heredada, op⟩ := p
    cases op with
    | agregar venta =>
      have := ih (agregarVenta venta e)
      simp only [ejecutarOperaciones, aplicar, eliminacionesLogradas, ventasAgregadas,
        List.map_cons, List.length_cons]
      rw [this]
      simp [agregarVenta]
      omega
    | eliminar id =>
      have := ih (eliminarVenta heredada id e).2
      simp only [ejecutarOperaciones, aplicar, eliminacionesLogradas, ventasAgregadas,
        List.map_cons]
      rcases eliminarVenta_casos heredada id e with
        ⟨_, heq⟩ | ⟨pre, v, post, hl, _, _, ⟨err, _, heq⟩ | ⟨r1, _, heq⟩⟩
      · rw [heq] at this ⊢
        simp only [reduceCtorEq, if_false] at this ⊢
        omega
      · rw [heq] at this ⊢
        simp only [reduceCtorEq, if_false] at this ⊢
        omega
      · rw [heq] at this ⊢
        simp only [if_true, hl, List.length_append, List.length_cons] at this ⊢
        omega

/-- C10. An append puts the sale at the end of the ledger.  A removal succeeds
exactly when a sale of the ledger has the id and the summary lookup for the
first such sale does not throw (which is so whenever its category is a key
of the summary); it then deletes that first sale and keeps the others in
their order, and any other removal leaves the ledger as it is.  Hence after
every run from the empty ledger, whatever the prototype chain at each step,
the ledger is the ledger computed on lists alone (appended sales, each at the
end, without the removed ones): a sublist of the appended sales, in order of
appending, one shorter for each successful removal.  Appending a sale and
removing it leaves the ledger empty. -/
theorem libro_en_orden_de_registro :
    (∀ (venta : Venta) (e : Estado), (agregarVenta venta e).ventas = e.ventas ++ [venta]) ∧
    (∀ (heredada : String → Bool) (id : Int) (e : Estado),
      ((eliminarVenta heredada id e).1 = .eliminada ↔
        ∃ v, e.ventas.find? (fun w => w.id == id) = some v ∧
          resuelve heredada v.categoria = true) ∧
      ((eliminarVenta heredada id e).1 = .eliminada →
        ∃ pre v post, e.ventas = pre ++ v :: post ∧ v.id = id ∧ (∀ w ∈ pre, w.id ≠ id) ∧
          (eliminarVenta heredada id e).2.ventas = pre ++ post ∧
          (eliminarVenta heredada id e).2.ventas = e.ventas.eraseP (fun w => w.id == id)) ∧
      ((eliminarVenta heredada id e).1 ≠ .eliminada →
        (eliminarVenta heredada id e).2.ventas = e.ventas) ∧
      ((∃ v ∈ e.ventas, v.id = id) →
        (∀ v ∈ e.ventas, (claveResumen v.categoria).isSome = true) →
        (eliminarVenta heredada id e).1 = .eliminada)) ∧
    (∀ ops : List ((String → Bool) × Operacion),
      (ejecutarOperaciones ops .inicial).ventas = libroEsperado ops [] ∧
      ((ejecutarOperaciones ops .inicial).ventas).Sublist
        (ventasAgregadas (ops.map Prod.snd)) ∧
      ((ejecutarOperaciones ops .inicial).ventas).length
        + eliminacionesLogradas ops .inicial = (ventasAgregadas (ops.map Prod.snd)).length) ∧
    (ejecutarOperaciones
      [(heredadaEstandar, .agregar ventaAna), (heredadaEstandar, .eliminar relojEjemplo)]
      .inicial).ventas = [] ∧
    (ejecutarOperaciones
      [(heredadaEstandar, .agregar ventaAna), (heredadaEstandar, .agregar ventaLuisDespues),
        (heredadaEstandar, .eliminar relojEjemplo)]
      .inicial).ventas = [ventaLuisDespues] := by
  refine ⟨fun _ _ => rfl, ?_, ?_, by decide, by decide⟩
  · intro heredada id e
    rcases eliminarVenta_exacta heredada id e with
      ⟨hf, hno, heq⟩ | ⟨v, hf, hmem, hid, hres, heq⟩ |
      ⟨pre, v, post, hf, hl, hid, hpre, hres, h1, hv, her⟩
    · rw [heq]
      refine ⟨⟨fun h => by simp at h, ?_⟩, fun h => by simp at h, fun _ => rfl, ?_⟩
      · rintro ⟨v, hv, _⟩
        rw [hf] at hv
        exact absurd hv (by simp)
      · rintro ⟨v, hv, hid⟩ _
        exact absurd hid (hno v hv)
    · rw [heq]
      refine ⟨⟨fun h => by simp at h, ?_⟩, fun h => by simp at h, fun _ => rfl, ?_⟩
      · rintro ⟨v2, hv2, hres2⟩
        rw [hf] at hv2
        simp only [Option.some.injEq] at hv2
        subst hv2
        rw [hres] at hres2
        exact absurd hres2 (by simp)
      · intro _ hcat
        have := hcat v hmem
        simp only [resuelve, Bool.or_eq_false_iff] at hres
        rw [hres.1] at this
        exact absurd this (by simp)
    · refine ⟨⟨fun _ => ⟨v, hf, hres⟩, fun _ => h1⟩, ?_, ?_, fun _ _ => h1⟩
      · intro _
        exact ⟨pre, v, post, hl, hid, hpre, hv, by rw [hv, her]⟩
      · intro h
        exact absurd h1 h
  · intro ops
    refine ⟨?_, ?_, ?_⟩
    · have := ejecutarOperaciones_libro ops .inicial
      simpa [Estado.inicial] using this
    · have := ejecutarOperaciones_sublista ops .inicial [] (List.Sublist.refl _)
      simpa using this
    · have := ejecutarOperaciones_longitud ops .inicial
      simpa [Estado.inicial] using this

/-- C7, as the code has it. `agregarVenta` contains no check of the id: it
appends the sale at the end of the ledger whatever ids the ledger holds, and
leaves the summary as it is. -/
theorem agregarVenta_siempre_agrega (venta : Venta) (e : Estado) :
    (agregarVenta venta e).ventas = e.ventas ++ [venta] ∧
    (agregarVenta venta e).resumen = e.resumen :=
  ⟨rfl, rfl⟩

/-- C7, counterexample to the claim as stated. Appending a sale whose id is
already in the ledger succeeds and changes the ledger, which then holds two
sales with one id. -/
theorem agregarVenta_acepta_id_repetido :
    ventaLuis.id = ventaAna.id ∧
    (agregarVenta ventaLuis (agregarVenta ventaAna .inicial)).ventas = [ventaAna, ventaLuis] ∧
    (agregarVenta ventaLuis (agregarVenta ventaAna .inicial)).ventas
      ≠ (agregarVenta ventaAna .inicial).ventas :=
  ⟨by decide, by decide, by decide⟩

/-- C6, the code at the failing input. Two sales registered at the same clock
reading share their id; `eliminarVenta` with that id then succeeds twice in a
row, and the second call changes the state again. -/
theorem eliminarVenta_dos_veces_con_id_repetido :
    estadoMismoReloj.ventas = [ventaAna, ventaLuis] ∧
    (eliminarVenta heredadaEstandar relojEjemplo estadoMismoReloj).1 = .eliminada ∧
    (eliminarVenta heredadaEstandar relojEjemplo
      (eliminarVenta heredadaEstandar relojEjemplo estadoMismoReloj).2).1 = .eliminada ∧
    (eliminarVenta heredadaEstandar relojEjemplo
      (eliminarVenta heredadaEstandar relojEjemplo estadoMismoReloj).2).2
      ≠ (eliminarVenta heredadaEstandar relojEjemplo estadoMismoReloj).2 :=
  ⟨by decide, by decide, by decide, by decide⟩

/-- Where ids are unique the second removal is refused: when exactly one sale
of the ledger has the id and its category names a bucket (or an inherited
member), the first call removes it and the second finds nothing and leaves
the state as the first call left it. -/
theorem eliminarVenta_dos_veces_id_unico (heredada : String → Bool) (id : Int) (e : Estado)
    (hunico : (e.ventas.filter (fun w => w.id == id)).length = 1)
    (hcat : ∀ w ∈ e.ventas, w.id = id →
      (claveResumen w.categoria).isSome = true ∨ heredada w.categoria = true) :
    (eliminarVenta heredada id e).1 = .eliminada ∧
    eliminarVenta heredada id (eliminarVenta heredada id e).2
      = (.noEncontrada, (eliminarVenta heredada id e).2) := by
  rcases eliminarVenta_casos heredada id e with
    ⟨hno, _⟩ | ⟨pre, v, post, hl, hid, hpre, hcasos⟩
  · have : e.ventas.filter (fun w => w.id == id) = [] := by
      rw [List.filter_eq_nil_iff]
      intro w hw
      simpa using hno w hw
    rw [this] at hunico
    simp at hunico
  · have hpre0 : pre.filter (fun w => w.id == id) = [] := by
      rw [List.filter_eq_nil_iff]
      intro w hw
      simpa using hpre w hw
    have hpost0 : post.filter (fun w => w.id == id) = [] := by
      rw [hl, List.filter_append, hpre0, List.filter_cons] at hunico
      simp only [hid, beq_self_eq_true, if_true, List.nil_append, List.length_cons] at hunico
      exact List.length_eq_zero.1 (by omega)
    have hresto : ∀ w ∈ pre ++ post, w.id ≠ id := by
      intro w hw
      rcases List.mem_append.1 hw with h | h
      · exact hpre w h
      · have := (List.filter_eq_nil_iff.1 hpost0) w h
        simpa using this
    rcases hcasos with ⟨err, hm, _⟩ | ⟨r1, _, heq⟩
    · exfalso
      unfold modificarCategoria at hm
      rcases hcat v (by simp [hl]) hid with h | h
      · cases hc : claveResumen v.categoria with
        | none => rw [hc] at h; simp at h
        | some k => rw [hc] at hm; simp at hm
      · cases hc : claveResumen v.categoria with
        | none => rw [hc] at hm; simp [h] at hm
        | some k => rw [hc] at hm; simp at hm
    · rw [heq]
      refine ⟨rfl, ?_⟩
      rcases eliminarVenta_casos heredada id
          { ventas := pre ++ post,
            resumen := { r1 with totalGeneral := r1.totalGeneral.menos v } } with
        ⟨_, h2⟩ | ⟨pre2, v2, post2, hl2, hid2, _, _⟩
      · exact h2
      · exact absurd hid2 (hresto v2 (by simp only [] at hl2; rw [hl2]; simp))

/-! ## Prices and the form -/

theorem PRECIOS_lookup (categoria : String) :
    PRECIOS.lookup categoria =
      if categoria = "vip" then some (.fin 50)
      else if categoria = "butacas" then some (.fin 30)
      else if categoria = "generales" then some (.fin 15)
      else none := by
  simp only [PRECIOS, List.lookup]
  by_cases h1 : categoria = "vip"
  · subst h1; rfl
  · by_cases h2 : categoria = "butacas"
    · subst h2; rfl
    · by_cases h3 : categoria = "generales"
      · subst h3; rfl
      · have b1 : (categoria == "vip") = false := by simpa using h1
        have b2 : (categoria == "butacas") = false := by simpa using h2
        have b3 : (categoria == "generales") = false := by simpa using h3
        simp [h1, h2, h3, b1, b2, b3]

theorem calcularTotal_ok (categoria : String) (cantidad : Numero) :
    calcularTotal categoria cantidad
      = .ok (match PRECIOS.lookup categoria with
             | some precio => precio.multiplicar cantidad
             | none => .nan) := by
  unfold calcularTotal
  cases PRECIOS.lookup categoria <;> rfl

/-- C8, as the code has it. `calcularTotal` never fails. For a category of the
price table it returns the product of the price and the quantity, for every
quantity, zero and negative ones included (the product is the exact integer
as long as its magnitude is at most 2^53); for any other category it
returns NaN. -/
theorem calcularTotal_nunca_falla (categoria : String) (cantidad : Numero) :
    (∃ total, calcularTotal categoria cantidad = .ok total) ∧
    (∀ precio, PRECIOS.lookup categoria = some precio →
      calcularTotal categoria cantidad = .ok (precio.multiplicar cantidad)) ∧
    (PRECIOS.lookup categoria = none → calcularTotal categoria cantidad = .ok .nan) ∧
    (∀ p n : Int, PRECIOS.lookup categoria = some (.fin p) → cantidad = .fin n →
      (p * n).natAbs ≤ limiteExacto → calcularTotal categoria cantidad = .ok (.fin (p * n))) := by
  unfold calcularTotal
  cases h : PRECIOS.lookup categoria with
  | none => exact ⟨⟨_, rfl⟩, fun _ hp => by simp at hp, fun _ => rfl, fun _ _ hp => by simp at hp⟩
  | some precio =>
    refine ⟨⟨_, rfl⟩, ?_, fun hp => by simp at hp, ?_⟩
    · intro p hp
      simp only [Option.some.injEq] at hp
      rw [hp]
    · intro p n hp hn hle
      simp only [Option.some.injEq] at hp
      rw [hp, hn]
      simp only [Numero.multiplicar]
      rw [redondear_exacto hle]

/-- C8, counterexample to the claim as stated. A category outside the price
table gives NaN and a quantity that is zero or negative gives the product;
neither call fails. -/
theorem calcularTotal_no_falla_ejemplos :
    PRECIOS.lookup "platea" = none ∧
    calcularTotal "platea" (.fin 2) = .ok .nan ∧
    calcularTotal "vip" (.fin (-1)) = .ok (.fin (-50)) ∧
    calcularTotal "vip" (.fin 0) = .ok (.fin 0) :=
  ⟨by decide, rfl, rfl, rfl⟩

theorem validarFormulario_iff (f : Formulario) :
    validarFormulario f = true ↔
      (validarNombreCompleto f.nombre = true ∧ f.categoria ≠ "" ∧
        validarCantidadCompleta f.cantidad = true) := by
  unfold validarFormulario
  cases hn : validarNombreCompleto f.nombre <;> cases hc : validarCantidadCompleta f.cantidad <;>
    by_cases hcat : f.categoria = "" <;> simp [hcat]

theorem procesarVenta_ventas (heredada : String → Bool) (f : Formulario) (ahora : Int)
    (fecha : String) (e : Estado) :
    (procesarVenta heredada f ahora fecha e).2.ventas = e.ventas ∨
    (validarFormulario f = true ∧ ∃ total,
      calcularTotal f.categoria (parseInt f.cantidad) = .ok total ∧
      (procesarVenta heredada f ahora fecha e).2.ventas
        = e.ventas ++ [construirVenta f ahora fecha total]) := by
  unfold procesarVenta
  cases hv : validarFormulario f with
  | false => left; rfl
  | true =>
    right
    refine ⟨rfl, ?_⟩
    simp only [Bool.not_true, Bool.false_eq_true, if_false]
    cases hc : calcularTotal f.categoria (parseInt f.cantidad) with
    | error err =>
      rw [calcularTotal_ok] at hc
      exact absurd hc (by simp)
    | ok total =>
      refine ⟨total, rfl, ?_⟩
      simp only [registrarVenta]
      cases actualizarResumen heredada (construirVenta f ahora fecha total)
        (agregarVenta (construirVenta f ahora fecha total) e).resumen <;> rfl

/-- C9, as the code has it. With a valid name and a valid quantity,
`validarFormulario` accepts the category exactly when it is not the empty
string; consequently every sale `procesarVenta` appends has a non-empty
category, which need not be a key of the price table. -/
theorem validarFormulario_categoria (f : Formulario)
    (hnombre : validarNombreCompleto f.nombre = true)
    (hcantidad : validarCantidadCompleta f.cantidad = true) :
    (validarFormulario f = true ↔ f.categoria ≠ "") ∧
    (∀ (heredada : String → Bool) (ahora : Int) (fecha : String) (e : Estado),
      ∀ v ∈ (procesarVenta heredada f ahora fecha e).2.ventas,
        v ∈ e.ventas ∨ (v.categoria = f.categoria ∧ v.categoria ≠ "")) := by
  constructor
  · rw [validarFormulario_iff]
    exact ⟨fun h => h.2.1, fun h => ⟨hnombre, h, hcantidad⟩⟩
  · intro heredada ahora fecha e v hv
    rcases procesarVenta_ventas heredada f ahora fecha e with heq | ⟨hval, total, _, heq⟩
    · rw [heq] at hv; exact Or.inl hv
    · rw [heq] at hv
      rcases List.mem_append.1 hv with h | h
      · exact Or.inl h
      · right
        simp only [List.mem_singleton] at h
        subst h
        exact ⟨rfl, ((validarFormulario_iff f).1 hval).2.1⟩

/-- C9, witness: the theorem at a form whose category is not in the table. -/
theorem validarFormulario_categoria_testigo :
    validarNombreCompleto formularioPlatea.nombre = true ∧
    validarCantidadCompleta formularioPlatea.cantidad = true ∧
    ((validarFormulario formularioPlatea = true ↔ formularioPlatea.categoria ≠ "") ∧
    (∀ (heredada : String → Bool) (ahora : Int) (fecha : String) (e : Estado),
      ∀ v ∈ (procesarVenta heredada formularioPlatea ahora fecha e).2.ventas,
        v ∈ e.ventas ∨ (v.categoria = formularioPlatea.categoria ∧ v.categoria ≠ ""))) :=
  ⟨by decide, by decide, validarFormulario_categoria formularioPlatea (by decide) (by decide)⟩

/-- C9, counterexample to the claim as stated. The category "platea" is no
key of the price table, yet the form is accepted and `procesarVenta` appends
the sale (with total NaN) before `actualizarResumen` throws. -/
theorem validarFormulario_acepta_categoria_ajena :
    PRECIOS.lookup formularioPlatea.categoria = none ∧
    validarFormulario formularioPlatea = true ∧
    procesarVenta heredadaEstandar formularioPlatea relojEjemplo fechaEjemplo .inicial
      = (.excepcion .typeError,
          { ventas := [{ id := relojEjemplo, nombre := "Ana Lopez", categoria := "platea",
                         cantidad := .fin 2, fecha := fechaEjemplo, total := .nan }],
            resumen := Estado.inicial.resumen }) :=
  ⟨by decide, by decide, by decide⟩

/-! ## Summary and ledger -/

theorem sumar_fin (a b : Int) : (Numero.fin a).sumar (.fin b) = redondear (a + b) := rfl

theorem restar_fin (a b : Int) : (Numero.fin a).restar (.fin b) = redondear (a - b) := by
  simp only [Numero.restar, Numero.negar, Numero.sumar]
  rfl

theorem esEntero_iff (x : Numero) : x.esEntero = true ↔ ∃ z, x = .fin z := by
  cases x <;> simp [Numero.esEntero]

theorem natAbs_valor_le (x : Numero) : x.valor.natAbs = x.magnitud := by
  cases x <;> simp [Numero.valor, Numero.magnitud]

theorem natAbs_sumaCantidad_le (l : List Venta) : (sumaCantidad l).natAbs ≤ pesoCantidad l := by
  induction l with
  | nil => simp [sumaCantidad, pesoCantidad]
  | cons v vs ih =>
    simp only [sumaCantidad, pesoCantidad, List.map_cons, List.sum_cons] at ih ⊢
    have h1 := Int.natAbs_add_le v.cantidad.valor (List.map (fun v => v.cantidad.valor) vs).sum
    have h2 := natAbs_valor_le v.cantidad
    omega

theorem natAbs_sumaTotal_le (l : List Venta) : (sumaTotal l).natAbs ≤ pesoTotal l := by
  induction l with
  | nil => simp [sumaTotal, pesoTotal]
  | cons v vs ih =>
    simp only [sumaTotal, pesoTotal, List.map_cons, List.sum_cons] at ih ⊢
    have h1 := Int.natAbs_add_le v.total.valor (List.map (fun v => v.total.valor) vs).sum
    have h2 := natAbs_valor_le v.total
    omega

theorem peso_sublista (f : Venta → Nat) {l1 l2 : List Venta} (h : l1.Sublist l2) :
    (l1.map f).sum ≤ (l2.map f).sum := by
  induction h with
  | slnil => simp
  | cons a _ ih => simp only [List.map_cons, List.sum_cons]; omega
  | cons₂ a _ ih => simp only [List.map_cons, List.sum_cons]; omega

theorem acotada_sublista {l1 l2 : List Venta} (h : l1.Sublist l2) (h2 : Acotada l2) :
    Acotada l1 :=
  ⟨Nat.le_trans (peso_sublista _ h) h2.1, Nat.le_trans (peso_sublista _ h) h2.2⟩

theorem deCategoria_sublista (c : String) (l : List Venta) : (deCategoria c l).Sublist l :=
  List.filter_sublist l

theorem acumuladoDe_mas (l : List Venta) (v : Venta) (hq : v.cantidad.esEntero = true)
    (ht : v.total.esEntero = true) (hac : Acotada (l ++ [v])) :
    (acumuladoDe l).mas v = acumuladoDe (l ++ [v]) := by
  obtain ⟨q, hq⟩ := (esEntero_iff _).1 hq
  obtain ⟨t, ht⟩ := (esEntero_iff _).1 ht
  have h1 := natAbs_sumaCantidad_le (l ++ [v])
  have h2 := natAbs_sumaTotal_le (l ++ [v])
  have e1 : sumaCantidad (l ++ [v]) = sumaCantidad l + q := by
    simp [sumaCantidad, hq, Numero.valor]
  have e2 : sumaTotal (l ++ [v]) = sumaTotal l + t := by
    simp [sumaTotal, ht, Numero.valor]
  simp only [Acumulado.mas, acumuladoDe, hq, ht, sumar_fin, e1, e2]
  rw [redondear_exacto, redondear_exacto]
  · rw [← e2]; exact Nat.le_trans h2 hac.2
  · rw [← e1]; exact Nat.le_trans h1 hac.1

theorem acumuladoDe_menos (pre post : List Venta) (v : Venta) (hq : v.cantidad.esEntero = true)
    (ht : v.total.esEntero = true) (hac : Acotada (pre ++ post)) :
    (acumuladoDe (pre ++ v :: post)).menos v = acumuladoDe (pre ++ post) := by
  obtain ⟨q, hq⟩ := (esEntero_iff _).1 hq
  obtain ⟨t, ht⟩ := (esEntero_iff _).1 ht
  have h1 := natAbs_sumaCantidad_le (pre ++ post)
  have h2 := natAbs_sumaTotal_le (pre ++ post)
  have e1 : sumaCantidad (pre ++ v :: post) - q = sumaCantidad (pre ++ post) := by
    simp [sumaCantidad, hq, Numero.valor]
    omega
  have e2 : sumaTotal (pre ++ v :: post) - t = sumaTotal (pre ++ post) := by
    simp [sumaTotal, ht, Numero.valor]
    omega
  simp only [Acumulado.menos, acumuladoDe, hq, ht, restar_fin, e1, e2]
  rw [redondear_exacto, redondear_exacto]
  · exact Nat.le_trans h2 hac.2
  · exact Nat.le_trans h1 hac.1

theorem deCategoria_append (c : String) (l1 l2 : List Venta) :
    deCategoria c (l1 ++ l2) = deCategoria c l1 ++ deCategoria c l2 := by
  simp [deCategoria]

theorem deCategoria_cons_mismo (l : List Venta) (v : Venta) :
    deCategoria v.categoria (v :: l) = v :: deCategoria v.categoria l := by
  simp [deCategoria]

theorem deCategoria_cons_otro (c : String) (l : List Venta) (v : Venta) (h : v.categoria ≠ c) :
    deCategoria c (v :: l) = deCategoria c l := by
  simp [deCategoria, h]

theorem acumuladoDe_mas_categoria (l : List Venta) (v : Venta) (hq : v.cantidad.esEntero = true)
    (ht : v.total.esEntero = true) (hac : Acotada (l ++ [v])) :
    (acumuladoDe (deCategoria v.categoria l)).mas v
      = acumuladoDe (deCategoria v.categoria (l ++ [v])) := by
  have hs : deCategoria v.categoria (l ++ [v]) = deCategoria v.categoria l ++ [v] := by
    rw [deCategoria_append, deCategoria_cons_mismo]
    rfl
  rw [hs]
  apply acumuladoDe_mas _ _ hq ht
  rw [← hs]
  exact acotada_sublista (deCategoria_sublista _ _) hac

theorem deCategoria_agregar_otro (c : String) (l : List Venta) (v : Venta)
    (h : v.categoria ≠ c) : deCategoria c (l ++ [v]) = deCategoria c l := by
  rw [deCategoria_append, deCategoria_cons_otro _ _ _ h]
  simp [deCategoria]

theorem registrarVenta_exacto (heredada : String → Bool) (v : Venta) (e : Estado)
    (hbf : v.bienFormada) (hres : e.resumen = resumenDesdeCero e.ventas)
    (hac : Acotada (e.ventas ++ [v])) :
    registrarVenta heredada v e
      = (.registrada, { ventas := e.ventas ++ [v],
                        resumen := resumenDesdeCero (e.ventas ++ [v]) }) := by
  obtain ⟨hcat, hq, ht⟩ := hbf
  have htot := acumuladoDe_mas e.ventas v hq ht hac
  have hmio := acumuladoDe_mas_categoria e.ventas v hq ht hac
  rcases hcat with h | h | h
  · rw [h] at hmio
    have o1 := deCategoria_agregar_otro "butacas" e.ventas v (by rw [h]; decide)
    have o2 := deCategoria_agregar_otro "generales" e.ventas v (by rw [h]; decide)
    simp [registrarVenta, agregarVenta, actualizarResumen, modificarCategoria, claveResumen, h,
      Resumen.poner, Resumen.obtener, hres, resumenDesdeCero, htot, hmio, o1, o2]
  · rw [h] at hmio
    have o1 := deCategoria_agregar_otro "vip" e.ventas v (by rw [h]; decide)
    have o2 := deCategoria_agregar_otro "generales" e.ventas v (by rw [h]; decide)
    simp [registrarVenta, agregarVenta, actualizarResumen, modificarCategoria, claveResumen, h,
      Resumen.poner, Resumen.obtener, hres, resumenDesdeCero, htot, hmio, o1, o2]
  · rw [h] at hmio
    have o1 := deCategoria_agregar_otro "vip" e.ventas v (by rw [h]; decide)
    have o2 := deCategoria_agregar_otro "butacas" e.ventas v (by rw [h]; decide)
    simp [registrarVenta, agregarVenta, actualizarResumen, modificarCategoria, claveResumen, h,
      Resumen.poner, Resumen.obtener, hres, resumenDesdeCero, htot, hmio, o1, o2]

theorem corte_sublista (pre post : List Venta) (v : Venta) :
    (pre ++ post).Sublist (pre ++ v :: post) :=
  List.Sublist.append (List.Sublist.refl _) (List.sublist_cons_self _ _)

theorem acumuladoDe_menos_categoria (pre post : List Venta) (v : Venta)
    (hq : v.cantidad.esEntero = true) (ht : v.total.esEntero = true)
    (hac : Acotada (pre ++ post)) :
    (acumuladoDe (deCategoria v.categoria (pre ++ v :: post))).menos v
      = acumuladoDe (deCategoria v.categoria (pre ++ post)) := by
  rw [deCategoria_append, deCategoria_cons_mismo, deCategoria_append]
  apply acumuladoDe_menos _ _ _ hq ht
  rw [← deCategoria_append]
  exact acotada_sublista (deCategoria_sublista _ _) hac

theorem deCategoria_quitar_otro (c : String) (pre post : List Venta) (v : Venta)
    (h : v.categoria ≠ c) : deCategoria c (pre ++ v :: post) = deCategoria c (pre ++ post) := by
  rw [deCategoria_append, deCategoria_cons_otro _ _ _ h, deCategoria_append]

theorem eliminarVenta_exacto (heredada : String → Bool) (id : Int) (e : Estado)
    (hbf : ∀ v ∈ e.ventas, v.bienFormada) (hres : e.resumen = resumenDesdeCero e.ventas)
    (hac : Acotada e.ventas) :
    (eliminarVenta heredada id e).2.ventas.Sublist e.ventas ∧
    (eliminarVenta heredada id e).2.resumen
      = resumenDesdeCero (eliminarVenta heredada id e).2.ventas := by
  rcases eliminarVenta_casos heredada id e with
    ⟨_, heq⟩ | ⟨pre, v, post, hl, _, _, hcasos⟩
  · rw [heq]; exact ⟨List.Sublist.refl _, hres⟩
  · obtain ⟨hcat, hq, ht⟩ := hbf v (by simp [hl])
    have hac2 : Acotada (pre ++ post) := acotada_sublista (hl ▸ corte_sublista pre post v) hac
    have htot := acumuladoDe_menos pre post v hq ht hac2
    have hmio := acumuladoDe_menos_categoria pre post v hq ht hac2
    rw [hl] at hres
    rcases hcat with h | h | h
    · rw [h] at hmio
      have o1 := deCategoria_quitar_otro "butacas" pre post v (by rw [h]; decide)
      have o2 := deCategoria_quitar_otro "generales" pre post v (by rw [h]; decide)
      rcases hcasos with ⟨err, hm, _⟩ | ⟨r1, hm, heq⟩
      · simp [modificarCategoria, claveResumen, h] at hm
      · simp only [modificarCategoria, claveResumen, h] at hm
        simp only [if_true, Except.ok.injEq] at hm
        rw [heq, ← hm, hl]
        refine ⟨corte_sublista pre post v, ?_⟩
        simp [Resumen.poner, Resumen.obtener, hres, resumenDesdeCero, htot, hmio, o1, o2]
    · rw [h] at hmio
      have o1 := deCategoria_quitar_otro "vip" pre post v (by rw [h]; decide)
      have o2 := deCategoria_quitar_otro "generales" pre post v (by rw [h]; decide)
      rcases hcasos with ⟨err, hm, _⟩ | ⟨r1, hm, heq⟩
      · simp [modificarCategoria, claveResumen, h] at hm
      · simp only [modificarCategoria, claveResumen, h] at hm
        simp only [String.reduceEq, if_true, if_false, Except.ok.injEq] at hm
        rw [heq, ← hm, hl]
        refine ⟨corte_sublista pre post v, ?_⟩
        simp [Resumen.poner, Resumen.obtener, hres, resumenDesdeCero, htot, hmio, o1, o2]
    · rw [h] at hmio
      have o1 := deCategoria_quitar_otro "vip" pre post v (by rw [h]; decide)
      have o2 := deCategoria_quitar_otro "butacas" pre post v (by rw [h]; decide)
      rcases hcasos with ⟨err, hm, _⟩ | ⟨r1, hm, heq⟩
      · simp [modificarCategoria, claveResumen, h] at hm
      · simp only [modificarCategoria, claveResumen, h] at hm
        simp only [String.reduceEq, if_true, if_false, Except.ok.injEq] at hm
        rw [heq, ← hm, hl]
        refine ⟨corte_sublista pre post v, ?_⟩
        simp [Resumen.poner, Resumen.obtener, hres, resumenDesdeCero, htot, hmio, o1, o2]

theorem ejecutar_invariante (heredada : String → Bool) (evs : List Evento) :
    ∀ (e : Estado) (reg : List Venta), e.ventas.Sublist reg →
      e.resumen = resumenDesdeCero e.ventas →
      (∀ v ∈ reg ++ ventasRegistradas evs, v.bienFormada) →
      Acotada (reg ++ ventasRegistradas evs) →
      (ejecutar heredada evs e).ventas.Sublist (reg ++ ventasRegistradas evs) ∧
      (ejecutar heredada evs e).resumen = resumenDesdeCero (ejecutar heredada evs e).ventas := by
  induction evs with
  | nil =>
    intro e reg hsub hres _ _
    simpa [ejecutar, ventasRegistradas] using ⟨hsub, hres⟩
  | cons ev evs ih =>
    intro e reg hsub hres hbf hac
    cases ev with
    | registrar v =>
      have hreg : reg ++ ventasRegistradas (.registrar v :: evs)
          = (reg ++ [v]) ++ ventasRegistradas evs := by
        simp [ventasRegistradas]
      rw [hreg] at hbf hac ⊢
      have hsub1 : (e.ventas ++ [v]).Sublist (reg ++ [v]) :=
        List.Sublist.append hsub (List.Sublist.refl _)
      have hsub2 : (e.ventas ++ [v]).Sublist ((reg ++ [v]) ++ ventasRegistradas evs) :=
        List.Sublist.trans hsub1 (List.sublist_append_left _ _)
      have hv : v.bienFormada := hbf v (by simp)
      have hstep := registrarVenta_exacto heredada v e hv hres (acotada_sublista hsub2 hac)
      have := ih (registrarVenta heredada v e).2 (reg ++ [v])
        (by rw [hstep]; exact hsub1) (by rw [hstep]) hbf hac
      simpa [ejecutar, paso] using this
    | eliminar id =>
      have hreg : reg ++ ventasRegistradas (.eliminar id :: evs)
          = reg ++ ventasRegistradas evs := by
        simp [ventasRegistradas]
      rw [hreg] at hbf hac ⊢
      have hsub2 : e.ventas.Sublist (reg ++ ventasRegistradas evs) :=
        List.Sublist.trans hsub (List.sublist_append_left _ _)
      have hstep := eliminarVenta_exacto heredada id e
        (fun v hv => hbf v (hsub2.subset hv)) hres (acotada_sublista hsub2 hac)
      have := ih (eliminarVenta heredada id e).2 reg
        (List.Sublist.trans hstep.1 hsub) hstep.2 hbf hac
      simpa [ejecutar, paso] using this

/-- C1, as the code has it. From the empty ledger and the all-zero summary,
after every sequence of registrations and removals in which every registered
sale has a category of the price table and integer quantity and total, and
the magnitudes of the quantities, and of the totals, of all the sales
registered add up to at most 2^53: every category bucket holds the sums of
`cantidad` and `total` over the ledger's sales of that category, and
`totalGeneral` holds the sums over all the ledger's sales. -/
theorem resumen_sin_deriva (heredada : String → Bool) (evs : List Evento)
    (hbf : ∀ v ∈ ventasRegistradas evs, v.bienFormada)
    (hac : Acotada (ventasRegistradas evs)) :
    (ejecutar heredada evs .inicial).resumen.vip
      = { cantidad := .fin (sumaCantidad (deCategoria "vip" (ejecutar heredada evs .inicial).ventas)),
          total := .fin (sumaTotal (deCategoria "vip" (ejecutar heredada evs .inicial).ventas)) } ∧
    (ejecutar heredada evs .inicial).resumen.butacas
      = { cantidad := .fin (sumaCantidad (deCategoria "butacas" (ejecutar heredada evs .inicial).ventas)),
          total := .fin (sumaTotal (deCategoria "butacas" (ejecutar heredada evs .inicial).ventas)) } ∧
    (ejecutar heredada evs .inicial).resumen.generales
      = { cantidad := .fin (sumaCantidad (deCategoria "generales" (ejecutar heredada evs .inicial).ventas)),
          total := .fin (sumaTotal (deCategoria "generales" (ejecutar heredada evs .inicial).ventas)) } ∧
    (ejecutar heredada evs .inicial).resumen.totalGeneral
      = { cantidad := .fin (sumaCantidad (ejecutar heredada evs .inicial).ventas),
          total := .fin (sumaTotal (ejecutar heredada evs .inicial).ventas) } ∧
    (∀ v ∈ (ejecutar heredada evs .inicial).ventas, v.bienFormada) ∧
    (ejecutar heredada evs .inicial).resumen
      = resumenDesdeCero (ejecutar heredada evs .inicial).ventas := by
  have h := ejecutar_invariante heredada evs .inicial [] (List.Sublist.refl _) (by decide)
    (by simpa using hbf) (by simpa using hac)
  simp only [List.nil_append] at h
  refine ⟨?_, ?_, ?_, ?_, fun v hv => hbf v (h.1.subset hv), h.2⟩
  · rw [h.2]; rfl
  · rw [h.2]; rfl
  · rw [h.2]; rfl
  · rw [h.2]; rfl

/-- C1, witness: the scenario of the specification (2 VIP, 3 general, removal
of the first sale) leaves VIP at (0, 0) and the grand total at (3, 45). -/
theorem resumen_sin_deriva_testigo :
    (∀ v ∈ ventasRegistradas eventosEjemplo, v.bienFormada) ∧
    Acotada (ventasRegistradas eventosEjemplo) ∧
    (ejecutar heredadaEstandar eventosEjemplo .inicial).ventas = [ventaLuisDespues] ∧
    (ejecutar heredadaEstandar eventosEjemplo .inicial).resumen.vip
      = { cantidad := .fin 0, total := .fin 0 } ∧
    (ejecutar heredadaEstandar eventosEjemplo .inicial).resumen.totalGeneral
      = { cantidad := .fin 3, total := .fin 45 } ∧
    (ejecutar heredadaEstandar eventosEjemplo .inicial).resumen
      = resumenDesdeCero (ejecutar heredadaEstandar eventosEjemplo .inicial).ventas :=
  ⟨by decide, by decide, by decide, by decide, by decide,
    (resumen_sin_deriva heredadaEstandar eventosEjemplo (by decide) (by decide)).2.2.2.2.2⟩

/-- C1, counterexample to the claim as stated. After 2^53 general tickets and
one more are registered (both forms pass validation) and the first sale is
removed, the ledger holds one sale of 1 ticket and total 15, while the
`generales` bucket and `totalGeneral` hold (0, 16). -/
theorem resumen_deriva_fuera_de_rango :
    procesarVenta heredadaEstandar formularioGrande relojEjemplo fechaEjemplo .inicial
      = (.registrada, (registrarVenta heredadaEstandar ventaGrande .inicial).2) ∧
    procesarVenta heredadaEstandar formularioUno (relojEjemplo + 1) fechaEjemplo
        (registrarVenta heredadaEstandar ventaGrande .inicial).2
      = (.registrada, (registrarVenta heredadaEstandar ventaUno
          (registrarVenta heredadaEstandar ventaGrande .inicial).2).2) ∧
    (ejecutar heredadaEstandar eventosGrandes .inicial).ventas = [ventaUno] ∧
    sumaCantidad (deCategoria "generales" [ventaUno]) = 1 ∧
    sumaTotal (deCategoria "generales" [ventaUno]) = 15 ∧
    (ejecutar heredadaEstandar eventosGrandes .inicial).resumen.generales
      = { cantidad := .fin 0, total := .fin 16 } ∧
    (ejecutar heredadaEstandar eventosGrandes .inicial).resumen.totalGeneral
      = { cantidad := .fin 0, total := .fin 16 } :=
  ⟨by decide, by decide, by decide, by decide, by decide, by decide, by decide⟩

/-! ## Registering a sale -/

theorem claveResumen_de_precio {categoria : String} {precio : Numero}
    (h : PRECIOS.lookup categoria = some precio) :
    categoria ≠ "" ∧
    ((categoria = "vip" ∧ precio = .fin 50 ∧ claveResumen categoria = some .vip) ∨
     (categoria = "butacas" ∧ precio = .fin 30 ∧ claveResumen categoria = some .butacas) ∨
     (categoria = "generales" ∧ precio = .fin 15 ∧ claveResumen categoria = some .generales)) := by
  rw [PRECIOS_lookup] at h
  by_cases h1 : categoria = "vip"
  · subst h1
    simp only [if_true, Option.some.injEq] at h
    exact ⟨by decide, Or.inl ⟨rfl, h.symm, rfl⟩⟩
  · by_cases h2 : categoria = "butacas"
    · subst h2
      simp only [String.reduceEq, if_true, if_false, Option.some.injEq] at h
      exact ⟨by decide, Or.inr (Or.inl ⟨rfl, h.symm, rfl⟩)⟩
    · by_cases h3 : categoria = "generales"
      · subst h3
        simp only [String.reduceEq, if_true, if_false, Option.some.injEq] at h
        exact ⟨by decide, Or.inr (Or.inr ⟨rfl, h.symm, rfl⟩)⟩
      · simp [h1, h2, h3] at h

theorem parseInt_exacto (s : String) (h : validarCantidadCompleta s = true)
    (hle : valorEnBase 10 s.toList ≤ limiteExacto) :
    parseInt s = .fin (valorEnBase 10 s.toList) := by
  unfold validarCantidadCompleta at h
  rw [Bool.and_eq_true, coincideClase_iff] at h
  obtain ⟨⟨hlen, hall⟩, _⟩ := h
  have hne : s.toList ≠ [] := by
    intro h0
    rw [h0] at hlen
    simp at hlen
  rw [parseInt_digitos s hne hall]
  exact redondear_exacto (by simpa using hle)

/-- C2, as the code has it. For a valid name, a category of the price table
and a quantity string accepted by the validator and denoting `n`, when the
buckets concerned hold integers and the product `precio * n` and the four
new sums have magnitude at most 2^53: `procesarVenta` appends one sale with
`cantidad = n` and `total = precio * n` at the end of the ledger, adds
exactly `(n, precio * n)` to the bucket of the category and to
`totalGeneral`, and leaves the other buckets as they were. -/
theorem procesarVenta_registra (heredada : String → Bool) (f : Formulario) (ahora : Int)
    (fecha : String) (e : Estado) (k : Clave) (precio c t gc gt : Int)
    (hnombre : validarNombreCompleto f.nombre = true)
    (hprecio : PRECIOS.lookup f.categoria = some (.fin precio))
    (hclave : claveResumen f.categoria = some k)
    (hcantidad : validarCantidadCompleta f.cantidad = true)
    (hcubo : e.resumen.obtener k = { cantidad := .fin c, total := .fin t })
    (hgeneral : e.resumen.totalGeneral = { cantidad := .fin gc, total := .fin gt })
    (hproducto : (precio * valorEnBase 10 f.cantidad.toList).natAbs ≤ limiteExacto)
    (hc : (c + valorEnBase 10 f.cantidad.toList).natAbs ≤ limiteExacto)
    (ht : (t + precio * valorEnBase 10 f.cantidad.toList).natAbs ≤ limiteExacto)
    (hgc : (gc + valorEnBase 10 f.cantidad.toList).natAbs ≤ limiteExacto)
    (hgt : (gt + precio * valorEnBase 10 f.cantidad.toList).natAbs ≤ limiteExacto) :
    (procesarVenta heredada f ahora fecha e).1 = .registrada ∧
    (procesarVenta heredada f ahora fecha e).2.ventas
      = e.ventas ++ [{ id := ahora, nombre := String.mk (recortar f.nombre.toList),
                       categoria := f.categoria,
                       cantidad := .fin (valorEnBase 10 f.cantidad.toList), fecha := fecha,
                       total := .fin (precio * valorEnBase 10 f.cantidad.toList) }] ∧
    (procesarVenta heredada f ahora fecha e).2.resumen.obtener k
      = { cantidad := .fin (c + valorEnBase 10 f.cantidad.toList),
          total := .fin (t + precio * valorEnBase 10 f.cantidad.toList) } ∧
    (procesarVenta heredada f ahora fecha e).2.resumen.totalGeneral
      = { cantidad := .fin (gc + valorEnBase 10 f.cantidad.toList),
          total := .fin (gt + precio * valorEnBase 10 f.cantidad.toList) } ∧
    (∀ k2 : Clave, k2 ≠ k → k2 ≠ .totalGeneral →
      (procesarVenta heredada f ahora fecha e).2.resumen.obtener k2 = e.resumen.obtener k2) := by
  obtain ⟨hno, hcasos⟩ := claveResumen_de_precio hprecio
  have hval : validarFormulario f = true := (validarFormulario_iff f).2 ⟨hnombre, hno, hcantidad⟩
  have hp1 : 1 ≤ precio := by
    rcases hcasos with ⟨_, hp, _⟩ | ⟨_, hp, _⟩ | ⟨_, hp, _⟩ <;>
      · simp only [Numero.fin.injEq] at hp
        omega
  have hn : valorEnBase 10 f.cantidad.toList ≤ limiteExacto := by
    have h1 : (valorEnBase 10 f.cantidad.toList : Int) ≤ precio * valorEnBase 10 f.cantidad.toList := by
      nlinarith [Int.ofNat_nonneg (valorEnBase 10 f.cantidad.toList)]
    omega
  have hparse := parseInt_exacto f.cantidad hcantidad hn
  have htotal : calcularTotal f.categoria (.fin (valorEnBase 10 f.cantidad.toList))
      = .ok (.fin (precio * valorEnBase 10 f.cantidad.toList)) := by
    rw [calcularTotal_ok, hprecio]
    simp only [Numero.multiplicar]
    rw [redondear_exacto hproducto]
  have hk : k ≠ .totalGeneral := by
    rcases hcasos with ⟨_, _, hk⟩ | ⟨_, _, hk⟩ | ⟨_, _, hk⟩ <;>
      · rw [hk] at hclave
        simp only [Option.some.injEq] at hclave
        rw [← hclave]
        decide
  simp only [procesarVenta, hval, htotal, registrarVenta, agregarVenta, actualizarResumen,
    modificarCategoria, hclave, construirVenta, hparse, Acumulado.mas, hcubo, sumar_fin,
    redondear_exacto hc, redondear_exacto ht, Bool.not_true, Bool.false_eq_true, if_false]
  cases k with
  | totalGeneral => exact absurd rfl hk
  | vip =>
    simp only [Resumen.poner, Resumen.obtener] at hgeneral ⊢
    simp only [hgeneral, sumar_fin, redondear_exacto hgc, redondear_exacto hgt]
    refine ⟨trivial, trivial, trivial, trivial, ?_⟩
    intro k2 h1 h2
    cases k2 <;> first | rfl | exact absurd rfl h1 | exact absurd rfl h2
  | butacas =>
    simp only [Resumen.poner, Resumen.obtener] at hgeneral ⊢
    simp only [hgeneral, sumar_fin, redondear_exacto hgc, redondear_exacto hgt]
    refine ⟨trivial, trivial, trivial, trivial, ?_⟩
    intro k2 h1 h2
    cases k2 <;> first | rfl | exact absurd rfl h1 | exact absurd rfl h2
  | generales =>
    simp only [Resumen.poner, Resumen.obtener] at hgeneral ⊢
    simp only [hgeneral, sumar_fin, redondear_exacto hgc, redondear_exacto hgt]
    refine ⟨trivial, trivial, trivial, trivial, ?_⟩
    intro k2 h1 h2
    cases k2 <;> first | rfl | exact absurd rfl h1 | exact absurd rfl h2

/-- C2, witness: the scenario of the specification, 2 VIP tickets at 50 from
the initial state, gives total 100 and grand total (2, 100). -/
theorem procesarVenta_registra_testigo :
    (procesarVenta heredadaEstandar formularioAna relojEjemplo fechaEjemplo .inicial).1
      = .registrada ∧
    (procesarVenta heredadaEstandar formularioAna relojEjemplo fechaEjemplo .inicial).2.ventas
      = [ventaAna] ∧
    (procesarVenta heredadaEstandar formularioAna relojEjemplo fechaEjemplo
      .inicial).2.resumen.vip = { cantidad := .fin 2, total := .fin 100 } ∧
    (procesarVenta heredadaEstandar formularioAna relojEjemplo fechaEjemplo
      .inicial).2.resumen.totalGeneral = { cantidad := .fin 2, total := .fin 100 } := by
  have h := procesarVenta_registra heredadaEstandar formularioAna relojEjemplo fechaEjemplo
    .inicial .vip 50 0 0 0 0 (by decide) (by decide) (by decide) (by decide) (by decide)
    (by decide) (by decide) (by decide) (by decide) (by decide) (by decide)
  exact ⟨h.1, h.2.1, h.2.2.1, h.2.2.2.1⟩

/-- C2, counterexample to the claim as stated. With 2^53 general tickets in the
summary, registering one more general ticket (total 15) leaves the count of
the `generales` bucket where it was and raises its total by 16. -/
theorem procesarVenta_incremento_inexacto :
    validarNombreCompleto formularioUno.nombre = true ∧
    validarCantidadCompleta formularioUno.cantidad = true ∧
    PRECIOS.lookup formularioUno.categoria = some (.fin 15) ∧
    estadoGrande.resumen.generales
      = { cantidad := .fin 9007199254740992, total := .fin 135107988821114880 } ∧
    (procesarVenta heredadaEstandar formularioUno (relojEjemplo + 1) fechaEjemplo
      estadoGrande).2.ventas = [ventaGrande, ventaUno] ∧
    (procesarVenta heredadaEstandar formularioUno (relojEjemplo + 1) fechaEjemplo
      estadoGrande).2.resumen.generales
      = { cantidad := .fin 9007199254740992, total := .fin 135107988821114896 } ∧
    (procesarVenta heredadaEstandar formularioUno (relojEjemplo + 1) fechaEjemplo
      estadoGrande).2.resumen.totalGeneral
      = { cantidad := .fin 9007199254740992, total := .fin 135107988821114896 } :=
  ⟨by decide, by decide, by decide, by decide, by decide, by decide, by decide⟩

/-! ## Loading the stored record -/

theorem leerMiembro_de_no_nulo (datos : ValorJS) (nombre : String) (h : datos ≠ .nulo) :
    ∃ x, leerMiembro datos nombre = .ok x := by
  cases datos with
  | nulo => exact absurd rfl h
  | booleano b => exact ⟨none, rfl⟩
  | numero n => exact ⟨none, rfl⟩
  | cadena u => exact ⟨none, rfl⟩
  | arreglo l => exact ⟨none, rfl⟩
  | objeto p => exact ⟨_, rfl⟩

theorem leerMiembro_de_no_objeto (datos : ValorJS) (nombre : String) (h : datos ≠ .nulo)
    (hobj : ∀ propiedades, datos ≠ .objeto propiedades) :
    leerMiembro datos nombre = .ok none := by
  cases datos with
  | nulo => exact absurd rfl h
  | booleano b => rfl
  | numero n => rfl
  | cadena u => rfl
  | arreglo l => rfl
  | objeto p => exact absurd rfl (hobj p)

theorem intentarCargar_sin_texto_json (s : String) (h : JSON.parse s = none) :
    intentarCargar s = .error .syntaxError := by
  simp only [intentarCargar, h]

theorem intentarCargar_nulo (s : String) (h : JSON.parse s = some .nulo) :
    intentarCargar s = .error .typeError := by
  simp only [intentarCargar, h, leerMiembro]

theorem intentarCargar_valor (s : String) (datos : ValorJS) (h : JSON.parse s = some datos)
    (hno : datos ≠ .nulo) :
    ∃ ventas resumen, leerMiembro datos "ventas" = .ok ventas ∧
      leerMiembro datos "resumen" = .ok resumen ∧
      intentarCargar s = .ok { ventas := oPorDefecto ventas ventasVacias
                               resumen := oPorDefecto resumen resumenCero } := by
  obtain ⟨ventas, hv⟩ := leerMiembro_de_no_nulo datos "ventas" hno
  obtain ⟨resumen, hr⟩ := leerMiembro_de_no_nulo datos "resumen" hno
  refine ⟨ventas, resumen, hv, hr, ?_⟩
  simp only [intentarCargar, h, hv, hr]

/-- The analysis on sample texts: nesting, escapes, numbers with fraction and
exponent, a repeated member name; and texts the grammar refuses (trailing
comma, leading zero, empty text, lone sign, cut literal). -/
theorem JSON_parse_ejemplos :
    JSON.parse " [1.50e-3, true,\"a\\u00e9\\n\", \x7b\x7d ]\n"
      = some (.arreglo [.numero ⟨false, 150, -5⟩, .booleano true, .cadena [97, 233, 10],
          .objeto []]) ∧
    JSON.parse "\x7b\"a\":1,\"a\":2\x7d"
      = some (.objeto [([97], .numero ⟨false, 1, 0⟩), ([97], .numero ⟨false, 2, 0⟩)]) ∧
    JSON.parse "null" = some .nulo ∧
    JSON.parse "[1,]" = none ∧ JSON.parse "01" = none ∧ JSON.parse "" = none ∧
    JSON.parse "-" = none ∧ JSON.parse "tru" = none ∧
    JSON.parse registroTruncado = none :=
  ⟨rfl, rfl, rfl, rfl, rfl, rfl, rfl, rfl, rfl⟩

/-- C11, as the code has it. No exception leaves `cargarDatos`.  An absent or
empty record leaves the globals as they are.  A record that is no JSON text,
or is the JSON text `null`, is removed and leaves the empty ledger and the
all-zero summary.  A record that parses to any other value is kept: when the
value is not an object the ledger is empty and the summary all-zero; when it
is an object, `ventas` and `resumen` are each taken from it as they are when
present and truthy, whatever their shape, and replaced by the empty ledger or
the all-zero summary only when missing or falsy. -/
theorem cargarDatos_segun_el_registro (almacenado : Option String) (g : Globales) :
    (∃ r, cargarDatos almacenado g = .ok r) ∧
    ((almacenado = none ∨ almacenado = some "") →
      cargarDatos almacenado g = .ok (g, almacenado)) ∧
    (∀ s, almacenado = some s → s ≠ "" →
      (JSON.parse s = none ∨ JSON.parse s = some .nulo) →
      cargarDatos almacenado g = .ok (Globales.vacios, none)) ∧
    (∀ s datos, almacenado = some s → s ≠ "" → JSON.parse s = some datos → datos ≠ .nulo →
      (∀ propiedades, datos ≠ .objeto propiedades) →
      cargarDatos almacenado g = .ok (Globales.vacios, some s)) ∧
    (∀ s propiedades, almacenado = some s → s ≠ "" →
      JSON.parse s = some (.objeto propiedades) →
      cargarDatos almacenado g
        = .ok ({ ventas := oPorDefecto
                   (propiedadPropia propiedades (unidadesDeCadena "ventas")) ventasVacias
                 resumen := oPorDefecto
                   (propiedadPropia propiedades (unidadesDeCadena "resumen")) resumenCero },
               some s)) ∧
    cargarDatos (some registroTruncado) g = .ok (Globales.vacios, none) ∧
    cargarDatos (some "null") g = .ok (Globales.vacios, none) := by
  refine ⟨?_, ?_, ?_, ?_, ?_, rfl, rfl⟩
  · cases almacenado with
    | none => exact ⟨_, rfl⟩
    | some s =>
      unfold cargarDatos
      by_cases hs : s = ""
      · simp only [hs, if_true]; exact ⟨_, rfl⟩
      · simp only [hs, if_false]
        cases intentarCargar s <;> exact ⟨_, rfl⟩
  · rintro (h | h)
    · subst h; rfl
    · subst h; rfl
  · intro s hs hne hparse
    subst hs
    unfold cargarDatos
    simp only [hne, if_false]
    rcases hparse with h | h
    · rw [intentarCargar_sin_texto_json s h]
    · rw [intentarCargar_nulo s h]
  · intro s datos hs hne hparse hno hobj
    subst hs
    obtain ⟨ventas, resumen, hv, hr, hcarga⟩ := intentarCargar_valor s datos hparse hno
    rw [leerMiembro_de_no_objeto datos "ventas" hno hobj] at hv
    rw [leerMiembro_de_no_objeto datos "resumen" hno hobj] at hr
    simp only [Except.ok.injEq] at hv hr
    subst hv hr
    unfold cargarDatos
    simp only [hne, if_false, hcarga]
    rfl
  · intro s propiedades hs hne hparse
    subst hs
    obtain ⟨ventas, resumen, hv, hr, hcarga⟩ :=
      intentarCargar_valor s (.objeto propiedades) hparse (by intro h; cases h)
    simp only [leerMiembro, Except.ok.injEq] at hv hr
    subst hv hr
    unfold cargarDatos
    simp only [hne, if_false, hcarga]

/-- C11, counterexample to the claim as stated. The stored record
`registroMalformado` is valid JSON whose `ventas` is the string "abc" and
whose `resumen` has no `butacas` bucket; `cargarDatos` keeps the record and
makes that string the ledger and that object the summary. -/
theorem cargarDatos_conserva_registro_malformado :
    cargarDatos (some registroMalformado) Globales.vacios
      = .ok ({ ventas := .cadena [97, 98, 99],
               resumen := .objeto [(unidadesDeCadena "vip",
                 .numero { negativo := false, mantisa := 1, exponente := 0 })] },
             some registroMalformado) ∧
    ValorJS.cadena [97, 98, 99] ≠ ventasVacias ∧
    leerMiembro (.objeto [(unidadesDeCadena "vip",
        .numero { negativo := false, mantisa := 1, exponente := 0 })]) "butacas" = .ok none ∧
    leerMiembro resumenCero "butacas" = .ok (some cuboCero) :=
  ⟨rfl, (by intro h; cases h), rfl, rfl⟩

end Boleteria
